import Mathlib

/-!
Verification of the shared-upperdir overlay snapshotter
(`plugins/snapshots/overlay/overlay.go`, `plugins/snapshots/overlay/path_mapping.go`).

The development shallowly embeds the path arithmetic (Go `path/filepath.Clean`,
`Join`, `Dir` on Unix), the identity hasher (SHA-256, lowercase hex), the path
resolver (`getSharedPathBase`, `getSnapshotPath`, `determineUpperPath`, ...),
the mount composer (`mounts`), the lifecycle operations (`createSnapshot`,
`Remove`, `Cleanup`, `Mounts`) as effect-trace functions over an abstract
filesystem, and the path-mapping index (`path_mapping.go`).  Filesystem reads
are parameters (`stat`, directory listings); filesystem writes are returned as
explicit effect lists.
-/

/-! ## Go `path/filepath` model (Unix rules)

`splitSlash` splits a character list on `'/'` (like `strings.Split`);
`cleanSegs` is the segment-stack form of Go's `Clean`; `goClean`, `goJoin` and
`goDir` mirror `filepath.Clean`, `filepath.Join` and `filepath.Dir`. -/

def splitSlash : List Char → List (List Char)
  | [] => [[]]
  | c :: cs =>
    if c = '/' then [] :: splitSlash cs
    else
      match splitSlash cs with
      | [] => [[c]]
      | s :: rest => (c :: s) :: rest

def joinSlash : List (List Char) → List Char
  | [] => []
  | [s] => s
  | s :: t :: rest => s ++ '/' :: joinSlash (t :: rest)

/-- Segment-stack processing of Go `filepath.Clean`: drop empty and `"."`
segments, let `".."` pop the stack (or be kept / dropped at the top depending
on rootedness), push plain segments. -/
def cleanSegs (rooted : Bool) : List (List Char) → List (List Char) → List (List Char)
  | [], acc => acc.reverse
  | seg :: rest, acc =>
    if seg = [] ∨ seg = ['.'] then cleanSegs rooted rest acc
    else if seg = ['.', '.'] then
      match acc with
      | top :: acc' =>
        if top = ['.', '.'] then cleanSegs rooted rest (seg :: top :: acc')
        else cleanSegs rooted rest acc'
      | [] =>
        if rooted then cleanSegs rooted rest []
        else cleanSegs rooted rest [seg]
    else cleanSegs rooted rest (seg :: acc)

/-- Model of Go `path/filepath.Clean` for Unix paths. -/
def goClean (path : String) : String :=
  if path = "" then "." else
  let cs := path.data
  let rooted : Bool := cs.head? == some '/'
  let stack := cleanSegs rooted (splitSlash cs) []
  match stack with
  | [] => if rooted then "/" else "."
  | st => String.mk ((if rooted then ['/'] else []) ++ joinSlash st)

/-- Model of Go `path/filepath.Join`: skip leading empty elements, join the
rest with `'/'`, then `Clean`; all elements empty gives `""`. -/
def goJoin (elems : List String) : String :=
  match elems.dropWhile (fun e => e = "") with
  | [] => ""
  | rest => goClean (String.mk (joinSlash (rest.map String.data)))

/-- Characters of a path up to and including the final `'/'` (empty when the
path has no separator), as in Go `filepath.Dir` before the `Clean` step. -/
def dropAfterLastSlash (cs : List Char) : List Char :=
  (cs.reverse.dropWhile (fun c => c ≠ '/')).reverse

/-- Model of Go `path/filepath.Dir` for Unix paths. -/
def goDir (path : String) : String :=
  goClean (String.mk (dropAfterLastSlash path.data))

/-- A plain path segment: non-empty, not `"."`, not `".."`, and free of
separators.  Directory basenames returned by `Readdirnames` are plain. -/
def PlainSegL (s : List Char) : Prop :=
  s ≠ [] ∧ s ≠ ['.'] ∧ s ≠ ['.', '.'] ∧ '/' ∉ s

instance (s : List Char) : Decidable (PlainSegL s) := by
  unfold PlainSegL; infer_instance

/-- A plain absolute path: it starts with `'/'` and every segment after the
leading separator is plain.  Such paths are fixed points of `goClean`. -/
def PlainAbs (a : String) : Prop :=
  a.data.head? = some '/' ∧ ∀ s ∈ splitSlash a.data.tail, PlainSegL s

instance (a : String) : Decidable (PlainAbs a) := by
  unfold PlainAbs; infer_instance

theorem splitSlash_ne_nil (cs : List Char) : splitSlash cs ≠ [] := by
  induction cs with
  | nil => simp [splitSlash]
  | cons c cs ih =>
    simp only [splitSlash]
    split
    · simp
    · cases h : splitSlash cs with
      | nil => simp
      | cons s rest => simp

theorem splitSlash_append (a b : List Char) :
    splitSlash (a ++ '/' :: b) = splitSlash a ++ splitSlash b := by
  induction a with
  | nil => simp [splitSlash]
  | cons c a ih =>
    by_cases hc : c = '/'
    · subst hc
      simp [splitSlash, ih]
    · cases h : splitSlash a with
      | nil => exact absurd h (splitSlash_ne_nil a)
      | cons s rest =>
        have ihh : splitSlash (a ++ '/' :: b) = s :: (rest ++ splitSlash b) := by
          rw [ih, h]; rfl
        simp only [List.cons_append, splitSlash, if_neg hc, List.append_eq, ihh, h]

theorem joinSlash_splitSlash (cs : List Char) : joinSlash (splitSlash cs) = cs := by
  induction cs with
  | nil => simp [splitSlash, joinSlash]
  | cons c cs ih =>
    by_cases hc : c = '/'
    · subst hc
      simp only [splitSlash, if_pos rfl]
      cases h : splitSlash cs with
      | nil => exact absurd h (splitSlash_ne_nil cs)
      | cons s rest =>
        simp only [joinSlash]
        rw [h] at ih
        simp [ih]
    · simp only [splitSlash, if_neg hc]
      cases h : splitSlash cs with
      | nil => exact absurd h (splitSlash_ne_nil cs)
      | cons s rest =>
        rw [h] at ih
        cases rest with
        | nil =>
          simp only [joinSlash] at ih ⊢
          simp [ih]
        | cons t rest' =>
          simp only [joinSlash] at ih ⊢
          simp [ih]

theorem splitSlash_no_slash (s : List Char) (h : '/' ∉ s) : splitSlash s = [s] := by
  induction s with
  | nil => simp [splitSlash]
  | cons c cs ih =>
    have hc : c ≠ '/' := fun hc => h (hc ▸ List.mem_cons_self c cs)
    have hcs : '/' ∉ cs := fun hm => h (List.mem_cons_of_mem c hm)
    simp [splitSlash, hc, ih hcs]

theorem splitSlash_joinSlash (segs : List (List Char)) (hne : segs ≠ [])
    (hs : ∀ s ∈ segs, '/' ∉ s) :
    splitSlash (joinSlash segs) = segs := by
  induction segs with
  | nil => exact absurd rfl hne
  | cons s rest ih =>
    cases rest with
    | nil =>
      simp only [joinSlash]
      exact splitSlash_no_slash s (hs s (List.mem_cons_self s []))
    | cons t rest' =>
      simp only [joinSlash]
      rw [splitSlash_append]
      rw [splitSlash_no_slash s (hs s (List.mem_cons_self s _))]
      rw [ih (by simp) (fun x hx => hs x (List.mem_cons_of_mem s hx))]
      rfl

theorem joinSlash_append (xs ys : List (List Char)) (hx : xs ≠ []) (hy : ys ≠ []) :
    joinSlash (xs ++ ys) = joinSlash xs ++ '/' :: joinSlash ys := by
  induction xs with
  | nil => exact absurd rfl hx
  | cons s rest ih =>
    cases rest with
    | nil =>
      cases ys with
      | nil => exact absurd rfl hy
      | cons y ys' => simp [joinSlash]
    | cons t rest' =>
      have h2 := ih (by simp)
      calc joinSlash ((s :: t :: rest') ++ ys)
          = s ++ '/' :: joinSlash ((t :: rest') ++ ys) := by simp [joinSlash]
        _ = s ++ '/' :: (joinSlash (t :: rest') ++ '/' :: joinSlash ys) := by rw [h2]
        _ = joinSlash (s :: t :: rest') ++ '/' :: joinSlash ys := by simp [joinSlash]

theorem cleanSegs_plain (rooted : Bool) (segs : List (List Char)) (acc : List (List Char))
    (h : ∀ s ∈ segs, PlainSegL s) :
    cleanSegs rooted segs acc = acc.reverse ++ segs := by
  induction segs generalizing acc with
  | nil => simp [cleanSegs]
  | cons s rest ih =>
    have hp : PlainSegL s := h s (List.mem_cons_self s rest)
    obtain ⟨h1, h2, h3, _⟩ := hp
    have hno : ¬(s = [] ∨ s = ['.']) := by
      rintro (h' | h')
      · exact h1 h'
      · exact h2 h'
    simp only [cleanSegs, if_neg hno, if_neg h3]
    rw [ih (s :: acc) (fun x hx => h x (List.mem_cons_of_mem s hx))]
    simp

/-! ## Plain absolute paths are fixed by `goClean`; `goJoin` on them is
string concatenation with `'/'` separators. -/

theorem mk_cons_ne_empty (c : Char) (cs : List Char) : String.mk (c :: cs) ≠ "" := by
  intro h
  have : c :: cs = ([] : List Char) := congrArg String.data h
  exact absurd this (by simp)

theorem goClean_abs (segs : List (List Char)) (hne : segs ≠ [])
    (hpl : ∀ s ∈ segs, PlainSegL s) :
    goClean (String.mk ('/' :: joinSlash segs)) = String.mk ('/' :: joinSlash segs) := by
  have hslash : ∀ s ∈ segs, '/' ∉ s := fun s hs => (hpl s hs).2.2.2
  have hsplit : splitSlash ('/' :: joinSlash segs) = [] :: segs := by
    simp [splitSlash, splitSlash_joinSlash segs hne hslash]
  have hclean : cleanSegs true ([] :: segs) [] = segs := by
    simp only [cleanSegs, if_pos (Or.inl rfl)]
    rw [cleanSegs_plain _ segs [] hpl]
    rfl
  cases segs with
  | nil => exact absurd rfl hne
  | cons s rest =>
    simp only [goClean, if_neg (mk_cons_ne_empty '/' (joinSlash (s :: rest)))]
    simp only [hsplit, List.head?, beq_self_eq_true, hclean, if_true]
    rfl

theorem plainAbs_parts (a : String) (ha : PlainAbs a) :
    ∃ segs, segs ≠ [] ∧ a.data = '/' :: joinSlash segs ∧ ∀ s ∈ segs, PlainSegL s := by
  obtain ⟨h1, h2⟩ := ha
  refine ⟨splitSlash a.data.tail, splitSlash_ne_nil _, ?_, h2⟩
  rw [joinSlash_splitSlash]
  cases hd : a.data with
  | nil => rw [hd] at h1; simp at h1
  | cons c cs =>
    rw [hd] at h1
    have hc : c = '/' := by simpa using h1
    simp [hc]

theorem plainAbs_ne_empty (a : String) (ha : PlainAbs a) : a ≠ "" := by
  obtain ⟨segs, _, hdata, _⟩ := plainAbs_parts a ha
  intro h
  rw [h] at hdata
  exact absurd hdata.symm (by simp [String.data])

theorem goJoin_two (a d : String) (ha : PlainAbs a) (hd : PlainSegL d.data) :
    goJoin [a, d] = a ++ "/" ++ d := by
  obtain ⟨segs, hne, hdata, hpl⟩ := plainAbs_parts a ha
  have hane : ¬(a = "") := plainAbs_ne_empty a ha
  have hjoin : joinSlash ([a, d].map String.data) = '/' :: joinSlash (segs ++ [d.data]) := by
    simp only [List.map, joinSlash, hdata]
    rw [joinSlash_append segs [d.data] hne (by simp)]
    simp [joinSlash]
  unfold goJoin
  simp only [List.dropWhile, decide_eq_false hane]
  rw [hjoin]
  rw [goClean_abs (segs ++ [d.data]) (by simp)
    (by
      intro s hs
      rcases List.mem_append.mp hs with h | h
      · exact hpl s h
      · simp at h; subst h; exact hd)]
  apply String.ext
  rw [String.data_append, String.data_append, hdata]
  rw [joinSlash_append segs [d.data] hne (by simp)]
  simp [joinSlash]

theorem goJoin_three (a d e : String) (ha : PlainAbs a) (hd : PlainSegL d.data)
    (he : PlainSegL e.data) :
    goJoin [a, d, e] = a ++ "/" ++ d ++ "/" ++ e := by
  obtain ⟨segs, hne, hdata, hpl⟩ := plainAbs_parts a ha
  have hane : ¬(a = "") := plainAbs_ne_empty a ha
  have hjoin : joinSlash ([a, d, e].map String.data) =
      '/' :: joinSlash (segs ++ [d.data, e.data]) := by
    simp only [List.map, joinSlash, hdata]
    rw [joinSlash_append segs [d.data, e.data] hne (by simp)]
    simp [joinSlash]
  unfold goJoin
  simp only [List.dropWhile, decide_eq_false hane]
  rw [hjoin]
  rw [goClean_abs (segs ++ [d.data, e.data]) (by simp)
    (by
      intro s hs
      rcases List.mem_append.mp hs with h | h
      · exact hpl s h
      · simp at h
        rcases h with h | h
        · subst h; exact hd
        · subst h; exact he)]
  apply String.ext
  simp only [String.data_append, hdata]
  rw [joinSlash_append segs [d.data, e.data] hne (by simp)]
  simp [joinSlash]

theorem plainAbs_append_seg (a d : String) (ha : PlainAbs a) (hd : PlainSegL d.data) :
    PlainAbs (a ++ "/" ++ d) := by
  obtain ⟨h1, h2⟩ := ha
  cases hdat : a.data with
  | nil => rw [hdat] at h1; simp at h1
  | cons c cs =>
    rw [hdat] at h1
    simp only [List.head?] at h1
    cases h1
    constructor
    · rw [String.data_append, String.data_append, hdat]
      rfl
    · rw [String.data_append, String.data_append, hdat]
      have : (('/' :: cs) ++ ("/" : String).data ++ d.data).tail = cs ++ '/' :: d.data := by
        simp [String.data]
      rw [this, splitSlash_append]
      intro s hs
      rcases List.mem_append.mp hs with h | h
      · rw [hdat] at h2
        simp only [List.tail_cons] at h2
        exact h2 s h
      · rw [splitSlash_no_slash d.data hd.2.2.2] at h
        simp at h
        subst h
        exact hd

/-! ## Path-ancestor test: `r` is `p` itself or a directory above `p`.
`os.RemoveAll r` deletes exactly the paths `p` with `pathAncestor r p`. -/

def pathAncestor (r p : String) : Bool :=
  r == p || (r ++ "/").data.isPrefixOf p.data

theorem pathAncestor_of_extend (a d p : String)
    (h : pathAncestor (a ++ "/" ++ d) p = true) : pathAncestor a p = true := by
  unfold pathAncestor at h ⊢
  rcases Bool.or_eq_true_iff.mp h with h | h
  · have hp : a ++ "/" ++ d = p := eq_of_beq h
    subst hp
    apply Bool.or_eq_true_iff.mpr
    right
    rw [List.isPrefixOf_iff_prefix, String.data_append (a ++ "/") d]
    exact List.prefix_append _ _
  · apply Bool.or_eq_true_iff.mpr
    right
    rw [List.isPrefixOf_iff_prefix] at h ⊢
    refine List.IsPrefix.trans ?_ h
    have hr : a ++ "/" ++ d ++ "/" = (a ++ "/") ++ (d ++ "/") := by
      rw [String.append_assoc]
    rw [hr, String.data_append]
    exact List.prefix_append _ _

theorem pathAncestor_to_sub (r b x : String)
    (h : pathAncestor r b = true) : pathAncestor r (b ++ "/" ++ x) = true := by
  unfold pathAncestor at h ⊢
  apply Bool.or_eq_true_iff.mpr
  right
  rw [List.isPrefixOf_iff_prefix]
  rcases Bool.or_eq_true_iff.mp h with h | h
  · have hb : r = b := eq_of_beq h
    subst hb
    rw [String.data_append (r ++ "/") x]
    exact List.prefix_append _ _
  · rw [List.isPrefixOf_iff_prefix] at h
    refine List.IsPrefix.trans h ?_
    rw [String.data_append, String.data_append, List.append_assoc]
    exact List.prefix_append _ _

/-! ## Identity hasher (C1): SHA-256 with lowercase-hex output.

Model of Go `crypto/sha256` + `fmt.Sprintf("%x", ...)` as used by
`hashString` in `overlay.go`.  Words are `Nat` reduced mod `2^32`. -/

def w32 (n : Nat) : Nat := n % 4294967296

def rotr32 (n x : Nat) : Nat := w32 ((x >>> n) ||| (x <<< (32 - n)))

def not32 (x : Nat) : Nat := x ^^^ 4294967295

def bigSigma0 (x : Nat) : Nat := (rotr32 2 x) ^^^ (rotr32 13 x) ^^^ (rotr32 22 x)

def bigSigma1 (x : Nat) : Nat := (rotr32 6 x) ^^^ (rotr32 11 x) ^^^ (rotr32 25 x)

def smallSigma0 (x : Nat) : Nat := (rotr32 7 x) ^^^ (rotr32 18 x) ^^^ (x >>> 3)

def smallSigma1 (x : Nat) : Nat := (rotr32 17 x) ^^^ (rotr32 19 x) ^^^ (x >>> 10)

def chFn (x y z : Nat) : Nat := (x &&& y) ^^^ (not32 x &&& z)

def majFn (x y z : Nat) : Nat := (x &&& y) ^^^ (x &&& z) ^^^ (y &&& z)

def sha256K : List Nat :=
  [1116352408, 1899447441, 3049323471, 3921009573, 961987163,
   1508970993, 2453635748, 2870763221, 3624381080, 310598401,
   607225278, 1426881987, 1925078388, 2162078206, 2614888103,
   3248222580, 3835390401, 4022224774, 264347078, 604807628,
   770255983, 1249150122, 1555081692, 1996064986, 2554220882,
   2821834349, 2952996808, 3210313671, 3336571891, 3584528711,
   113926993, 338241895, 666307205, 773529912, 1294757372,
   1396182291, 1695183700, 1986661051, 2177026350, 2456956037,
   2730485921, 2820302411, 3259730800, 3345764771, 3516065817,
   3600352804, 4094571909, 275423344, 430227734, 506948616,
   659060556, 883997877, 958139571, 1322822218, 1537002063,
   1747873779, 1955562222, 2024104815, 2227730452, 2361852424,
   2428436474, 2756734187, 3204031479, 3329325298]

structure Sha256State where
  a : Nat
  b : Nat
  c : Nat
  d : Nat
  e : Nat
  f : Nat
  g : Nat
  h : Nat

def sha256Init : Sha256State :=
  ⟨1779033703, 3144134277, 1013904242, 2773480762,
   1359893119, 2600822924, 528734635, 1541459225⟩

def compressStep (s : Sha256State) (kw : Nat × Nat) : Sha256State :=
  let t1 := w32 (s.h + bigSigma1 s.e + chFn s.e s.f s.g + kw.1 + kw.2)
  let t2 := w32 (bigSigma0 s.a + majFn s.a s.b s.c)
  ⟨w32 (t1 + t2), s.a, s.b, s.c, w32 (s.d + t1), s.e, s.f, s.g⟩

def bytesToWords : List Nat → List Nat
  | b0 :: b1 :: b2 :: b3 :: rest =>
    (b0 * 16777216 + b1 * 65536 + b2 * 256 + b3) :: bytesToWords rest
  | _ => []

def extendSchedule (w : List Nat) : Nat → List Nat
  | 0 => w
  | fuel + 1 =>
    let n := w.length
    let x := w32 (smallSigma1 (w.getD (n - 2) 0) + w.getD (n - 7) 0 +
      smallSigma0 (w.getD (n - 15) 0) + w.getD (n - 16) 0)
    extendSchedule (w ++ [x]) fuel

def compressBlock (st : Sha256State) (block : List Nat) : Sha256State :=
  let w := extendSchedule (bytesToWords block) 48
  let s := (sha256K.zip w).foldl compressStep st
  ⟨w32 (st.a + s.a), w32 (st.b + s.b), w32 (st.c + s.c), w32 (st.d + s.d),
   w32 (st.e + s.e), w32 (st.f + s.f), w32 (st.g + s.g), w32 (st.h + s.h)⟩

def chunk64Go : Nat → List Nat → List (List Nat)
  | 0, _ => []
  | _, [] => []
  | fuel + 1, l => (l.take 64) :: chunk64Go fuel (l.drop 64)

def chunk64 (l : List Nat) : List (List Nat) := chunk64Go l.length l

def len64be (n : Nat) : List Nat :=
  [(n >>> 56) % 256, (n >>> 48) % 256, (n >>> 40) % 256, (n >>> 32) % 256,
   (n >>> 24) % 256, (n >>> 16) % 256, (n >>> 8) % 256, n % 256]

def padMsg (msg : List Nat) : List Nat :=
  let l := msg.length
  let k := (119 - l % 64) % 64
  msg ++ 128 :: List.replicate k 0 ++ len64be (8 * l)

def word32ToBytes (w : Nat) : List Nat :=
  [(w >>> 24) % 256, (w >>> 16) % 256, (w >>> 8) % 256, w % 256]

/-- SHA-256 digest (32 bytes) of a byte sequence. -/
def sha256Bytes (msg : List Nat) : List Nat :=
  let st := (chunk64 (padMsg msg)).foldl compressBlock sha256Init
  [st.a, st.b, st.c, st.d, st.e, st.f, st.g, st.h].flatMap word32ToBytes

/-- UTF-8 encoding of one character (scalar value to 1..4 bytes). -/
def utf8EncodeChar (c : Char) : List Nat :=
  let v := c.toNat
  if v < 128 then [v]
  else if v < 2048 then [192 + v / 64, 128 + v % 64]
  else if v < 65536 then [224 + v / 4096, 128 + (v / 64) % 64, 128 + v % 64]
  else [240 + v / 262144, 128 + (v / 4096) % 64, 128 + (v / 64) % 64, 128 + v % 64]

def strUTF8 (s : String) : List Nat := s.data.flatMap utf8EncodeChar

def hexChars : List Char := "0123456789abcdef".data

def hexDigit (n : Nat) : Char := hexChars.getD n '0'

def byteToHex (b : Nat) : List Char := [hexDigit (b / 16), hexDigit (b % 16)]

/-- Model of `hashString` (`overlay.go`): lowercase-hex SHA-256 of the UTF-8
bytes of the input, 64 characters. -/
def hashString (s : String) : String :=
  String.mk ((sha256Bytes (strUTF8 s)).flatMap byteToHex)

/-- Byte-indexed string truncation (Go `s[:n]` on an ASCII string). -/
def strTake (s : String) (n : Nat) : String := String.mk (s.data.take n)

/-! ## Hash output facts: 64 lowercase-hex characters; 8-character prefixes
are plain path segments. -/

theorem getD_mem_of_default_mem {α : Type} (l : List α) (n : Nat) (d : α)
    (hd : d ∈ l) : l.getD n d ∈ l := by
  unfold List.getD
  cases h : l.get? n with
  | none => simpa using hd
  | some c =>
    have := List.get?_mem h
    simpa using this

theorem hexDigit_mem (n : Nat) : hexDigit n ∈ hexChars :=
  getD_mem_of_default_mem hexChars n '0' (by decide)

theorem byteToHex_mem (b : Nat) (c : Char) (h : c ∈ byteToHex b) : c ∈ hexChars := by
  unfold byteToHex at h
  rcases List.mem_cons.mp h with h | h
  · exact h ▸ hexDigit_mem _
  · rcases List.mem_cons.mp h with h | h
    · exact h ▸ hexDigit_mem _
    · simp at h

theorem flatMap_const_length {α β : Type} (f : α → List β) (k : Nat)
    (hf : ∀ x, (f x).length = k) (l : List α) :
    (l.flatMap f).length = k * l.length := by
  induction l with
  | nil => simp
  | cons x xs ih => simp [List.flatMap_cons, ih, hf x, Nat.mul_succ, Nat.add_comm]

theorem sha256Bytes_length (msg : List Nat) : (sha256Bytes msg).length = 32 := by
  unfold sha256Bytes
  simp [List.flatMap_cons, word32ToBytes]

theorem hashString_data_length (s : String) : (hashString s).data.length = 64 := by
  unfold hashString
  show ((sha256Bytes (strUTF8 s)).flatMap byteToHex).length = 64
  rw [flatMap_const_length byteToHex 2 (fun b => rfl), sha256Bytes_length]

theorem hashString_mem_hex (s : String) (c : Char) (h : c ∈ (hashString s).data) :
    c ∈ hexChars := by
  unfold hashString at h
  have h' : c ∈ (sha256Bytes (strUTF8 s)).flatMap byteToHex := h
  rw [List.mem_flatMap] at h'
  obtain ⟨b, _, hc⟩ := h'
  exact byteToHex_mem b c hc

theorem plainSeg_hash8 (s : String) : PlainSegL ((strTake (hashString s) 8).data) := by
  have hdata : (strTake (hashString s) 8).data = (hashString s).data.take 8 := rfl
  have hlen : ((hashString s).data.take 8).length = 8 := by
    rw [List.length_take, hashString_data_length]
    decide
  refine ⟨?_, ?_, ?_, ?_⟩
  · rw [hdata]
    intro h
    rw [h] at hlen
    simp at hlen
  · rw [hdata]
    intro h
    rw [h] at hlen
    simp at hlen
  · rw [hdata]
    intro h
    rw [h] at hlen
    simp at hlen
  · rw [hdata]
    intro h
    have h1 : ('/' : Char) ∈ (hashString s).data := List.mem_of_mem_take h
    have h2 : ('/' : Char) ∈ hexChars := hashString_mem_hex s '/' h1
    exact absurd h2 (by decide)

/-! ## Snapshot data model (`core/snapshots` + `storage` as consumed by the
overlay snapshotter). -/

inductive SnapKind where
  | active
  | view
  | committed
  | unknown
deriving DecidableEq, Repr

/-- Mirror of `snapshots.Info` as used by the overlay code: the kind and the
label map (`none` models a nil Go map). -/
structure SnapInfo where
  kind : SnapKind
  labels : Option (List (String × String))
deriving DecidableEq, Repr

/-- Mirror of `storage.Snapshot`: engine id, kind, and ordered parent ids
(nearest parent first). -/
structure Snapshot where
  id : String
  kind : SnapKind
  parentIDs : List String
deriving DecidableEq, Repr

def lookupLabel (info : SnapInfo) (k : String) : Option String :=
  match info.labels with
  | none => none
  | some ls => ls.lookup k

def LabelK8sNamespace : String := "containerd.io/snapshot/k8s-namespace"

def LabelK8sPodName : String := "containerd.io/snapshot/k8s-pod-name"

def LabelK8sContainerName : String := "containerd.io/snapshot/k8s-container-name"

def LabelSharedDiskPath : String := "containerd.io/snapshot/shared-disk-path"

def LabelUseSharedStorage : String := "containerd.io/snapshot/use-shared-storage"

def LabelSnapshotUIDMapping : String := "containerd.io/snapshot/uidmapping"

def LabelSnapshotGIDMapping : String := "containerd.io/snapshot/gidmapping"

/-- Mirror of `isSharedSnapshot`: the `use-shared-storage` label is present
with value exactly `"true"`. -/
def isSharedSnapshot (info : SnapInfo) : Bool :=
  lookupLabel info LabelUseSharedStorage == some "true"

/-- A `RegisterPathMapping` call as emitted by `getSharedPathBase`. -/
structure RegEvent where
  basePath : String
  podHash : String
  snapshotHash : String
  nsName : String
  podName : String
  containerName : String
  snapshotID : String
deriving DecidableEq, Repr

def missingLabelsMsg : String :=
  "missing one or more required labels for shared storage path (sharedPath, namespace, podName, containerName)"

/-- Mirror of `getSharedPathBase` (`overlay.go` 143-175) together with the
`RegisterPathMapping` side effect it performs on success. -/
def getSharedPathBaseE (info : SnapInfo) (id : String) :
    Except String String × List RegEvent :=
  match info.labels with
  | none => (.error "missing labels for shared storage path construction", [])
  | some ls =>
    match ls.lookup LabelSharedDiskPath, ls.lookup LabelK8sNamespace,
        ls.lookup LabelK8sPodName, ls.lookup LabelK8sContainerName with
    | some sharedDiskPath, some kubeNamespace, some podName, some containerName =>
      if id = "" then
        (.error "snapshot ID is required for shared storage path", [])
      else
        let podIdentifier := kubeNamespace ++ "/" ++ podName ++ "/" ++ containerName
        let podHash := strTake (hashString podIdentifier) 8
        let snapshotHash := strTake (hashString id) 8
        let basePath := goJoin [sharedDiskPath, podHash, snapshotHash]
        (.ok basePath,
         [⟨sharedDiskPath, podHash, snapshotHash, kubeNamespace, podName, containerName, id⟩])
    | _, _, _, _ => (.error missingLabelsMsg, [])

/-- The value computed by `getSharedPathBase`, without its side effect. -/
def getSharedPathBase (info : SnapInfo) (id : String) : Except String String :=
  (getSharedPathBaseE info id).1

/-! ## Snapshotter configuration and path resolver (`overlay.go`). -/

/-- The configuration fields of `snapshotter` consulted by the modelled
operations. -/
structure SnapConfig where
  root : String
  asyncRemove : Bool
  options : List String
  remapIDs : Bool
  shortBasePaths : Bool
deriving Repr

/-- Mirror of `getSnapshotPath`: short root `parent(parent(root))/l/<id>` when
short base paths are enabled, else `<root>/snapshots/<id>`. -/
def getSnapshotPath (o : SnapConfig) (id : String) : String :=
  if o.shortBasePaths then
    let containerdRoot := goDir o.root
    let sharedStorageBase := goDir containerdRoot
    goJoin [sharedStorageBase, "l", id]
  else goJoin [o.root, "snapshots", id]

def getSnapshotFSPath (o : SnapConfig) (id : String) : String :=
  goJoin [getSnapshotPath o id, "fs"]

def getSnapshotWorkPath (o : SnapConfig) (id : String) : String :=
  goJoin [getSnapshotPath o id, "work"]

/-- Mirror of `getSnapshotsRoot`. -/
def getSnapshotsRoot (o : SnapConfig) : String :=
  if o.shortBasePaths then
    goJoin [goDir (goDir o.root), "l"]
  else goJoin [o.root, "snapshots"]

/-- Mirror of `determineUpperPath` with its registration side effect. -/
def determineUpperPathE (o : SnapConfig) (id : String) (info : SnapInfo) :
    Except String String × List RegEvent :=
  if isSharedSnapshot info then
    match getSharedPathBaseE info id with
    | (.ok base, regs) => (.ok (goJoin [base, "fs"]), regs)
    | (.error e, regs) =>
      (.error ("failed to get shared path base for upperdir of snapshot " ++ id ++ ": " ++ e),
       regs)
  else (.ok (getSnapshotFSPath o id), [])

/-- Mirror of `determineWorkPath` with its registration side effect. -/
def determineWorkPathE (o : SnapConfig) (id : String) (info : SnapInfo) :
    Except String String × List RegEvent :=
  if isSharedSnapshot info then
    match getSharedPathBaseE info id with
    | (.ok base, regs) => (.ok (goJoin [base, "work"]), regs)
    | (.error e, regs) =>
      (.error ("failed to get shared path base for workdir of snapshot " ++ id ++ ": " ++ e),
       regs)
  else (.ok (getSnapshotWorkPath o id), [])

/-- Dual-location parent `fs` resolution as inlined in `mounts` (and in the
single-parent `View` branch): try the configured layout first, then the
opposite layout; the fallback path is used even if it does not exist. -/
def resolveParentPath (o : SnapConfig) (stat : String → Bool) (parentID : String) : String :=
  let parentPath := getSnapshotFSPath o parentID
  if stat parentPath then parentPath
  else if o.shortBasePaths then goJoin [o.root, "snapshots", parentID, "fs"]
  else goJoin [goDir (goDir o.root), "l", parentID, "fs"]

/-! ## Mount composer (`mounts`, `overlay.go` 868-982). -/

structure Mount where
  mountType : String
  source : String
  options : List String
deriving DecidableEq, Repr

/-- `strings.Join` with `":"`. -/
def joinColon : List String → String
  | [] => ""
  | [p] => p
  | p :: q :: rest => p ++ ":" ++ joinColon (q :: rest)

/-- The `uidmap=`/`gidmap=` options prepended by `mounts` when ID remapping is
enabled. -/
def remapOptions (o : SnapConfig) (info : SnapInfo) : List String :=
  if o.remapIDs then
    (match lookupLabel info LabelSnapshotUIDMapping with
     | some v => ["uidmap=" ++ v]
     | none => []) ++
    (match lookupLabel info LabelSnapshotGIDMapping with
     | some v => ["gidmap=" ++ v]
     | none => [])
  else []

/-- Mirror of `snapshotter.mounts`, returning the mounts and the path-mapping
registrations performed while resolving shared paths.  `stat` tells whether a
path exists (`os.Stat` succeeding). -/
def mountsE (o : SnapConfig) (stat : String → Bool) (s : Snapshot) (info : SnapInfo) :
    List Mount × List RegEvent :=
  let options0 := remapOptions o info
  let up := determineUpperPathE o s.id info
  let actualUpperPath :=
    match up.1 with
    | .ok p => p
    | .error _ => getSnapshotFSPath o s.id
  if s.parentIDs.isEmpty then
    let roFlag := if s.kind = SnapKind.view then "ro" else "rw"
    ([⟨"bind", actualUpperPath, options0 ++ [roFlag, "rbind"]⟩], up.2)
  else if s.kind = SnapKind.active then
    let wk := determineWorkPathE o s.id info
    let actualWorkPath :=
      match wk.1 with
      | .ok p => p
      | .error _ => getSnapshotWorkPath o s.id
    let options1 := options0 ++ ["workdir=" ++ actualWorkPath, "upperdir=" ++ actualUpperPath]
    let parentPaths := s.parentIDs.map (resolveParentPath o stat)
    let lowerdirOption := "lowerdir=" ++ joinColon parentPaths
    ([⟨"overlay", "overlay", options1 ++ [lowerdirOption] ++ o.options⟩], up.2 ++ wk.2)
  else if s.parentIDs.length = 1 ∧ s.kind = SnapKind.view then
    let parentUpperPath := resolveParentPath o stat (s.parentIDs.headD "")
    ([⟨"bind", parentUpperPath, options0 ++ ["ro", "rbind"]⟩], up.2)
  else
    let parentPaths := s.parentIDs.map (resolveParentPath o stat)
    let lowerdirOption := "lowerdir=" ++ joinColon parentPaths
    ([⟨"overlay", "overlay", options0 ++ [lowerdirOption] ++ o.options⟩], up.2)

/-- Mirror of the `Mounts` operation: load the snapshot and its info from the
metadata store (results passed in as the transaction's outcome), then compose
mounts.  Its only writes are the registrations reported in the second
component. -/
def MountsOp (o : SnapConfig) (stat : String → Bool)
    (getSnapRes : Except String Snapshot) (getInfoRes : Except String SnapInfo) :
    Except String (List Mount × List RegEvent) :=
  match getSnapRes with
  | .error e => .error ("failed to get active mount: " ++ e)
  | .ok s =>
    match getInfoRes with
    | .error e => .error ("failed to get snapshot info: " ++ e)
    | .ok info => .ok (mountsE o stat s info)

/-! ## Lifecycle engine (`createSnapshot`, `Remove`, `Cleanup`) as effect
traces.  Filesystem reads are parameters; writes are returned as `FsOp`
lists in program order. -/

inductive FsOp where
  | mkdirAll (path : String) (mode : Nat)
  | mkdirTemp (dir : String) (name : String)
  | mkdir (path : String) (mode : Nat)
  | lchown (path : String) (uid : Nat) (gid : Nat)
  | rename (src : String) (dst : String)
deriving DecidableEq, Repr

/-- Mirror of `prepareDirectory`: the temp directory created under
`snapshotDir` and the directory operations performed inside it (`fs` always,
`work` only for `Active`). -/
def prepareDirectoryOps (snapshotDir : String) (kind : SnapKind) (tmpName : String) :
    String × List FsOp :=
  let td := goJoin [snapshotDir, tmpName]
  (td,
   [FsOp.mkdirTemp snapshotDir tmpName, FsOp.mkdir (goJoin [td, "fs"]) 0o755] ++
     (if kind = SnapKind.active then [FsOp.mkdir (goJoin [td, "work"]) 0o711] else []))

/-- Mirror of the UID/GID derivation in `createSnapshot` (lines 717-777):
explicit `uidmapping`/`gidmapping` labels win (parsed by the external ID-map
utility, abstracted as `rootPair`); otherwise the nearest parent's `fs` is
statted with dual-location fallback; no parents means no explicit chown
(`none` models Go's `(-1, -1)`). -/
def deriveUidGid (o : SnapConfig) (info : SnapInfo) (parentIDs : List String)
    (statUIDGID : String → Option (Nat × Nat))
    (rootPair : String → String → Except String (Nat × Nat)) :
    Except String (Option (Nat × Nat)) :=
  let uidmapLabel := lookupLabel info LabelSnapshotUIDMapping
  let gidmapLabel := lookupLabel info LabelSnapshotGIDMapping
  if uidmapLabel.isSome || gidmapLabel.isSome then
    match rootPair (uidmapLabel.getD "") (gidmapLabel.getD "") with
    | .error e => .error e
    | .ok p => .ok (some p)
  else
    match parentIDs with
    | [] => .ok none
    | parentID :: _ =>
      match statUIDGID (getSnapshotFSPath o parentID) with
      | some ug => .ok (some ug)
      | none =>
        match statUIDGID
            (if o.shortBasePaths then goJoin [o.root, "snapshots", parentID, "fs"]
             else goJoin [goDir (goDir o.root), "l", parentID, "fs"]) with
        | some ug => .ok (some ug)
        | none =>
          .error ("failed to stat parent " ++ parentID ++
            " for UID/GID (tried both short and original paths)")

structure CreateResult where
  mounts : List Mount
  ops : List FsOp
  regs : List RegEvent
deriving Repr

/-- Mirror of `createSnapshot` (lines 675-847) on its success path after the
metadata store has created the snapshot record: `s` and `info` are the
transaction's results (with opts folded into `info`), `tmpName` the random
name chosen by `os.MkdirTemp`.  Returns the mounts, the directory operations
in program order, and the path-mapping registrations. -/
def createSnapshotE (o : SnapConfig) (kind : SnapKind) (s : Snapshot) (info : SnapInfo)
    (statUIDGID : String → Option (Nat × Nat))
    (rootPair : String → String → Except String (Nat × Nat))
    (tmpName : String) : Except String CreateResult :=
  let stat : String → Bool := fun p => (statUIDGID p).isSome
  match deriveUidGid o info s.parentIDs statUIDGID rootPair with
  | .error e => .error e
  | .ok mapped =>
    if isSharedSnapshot info = true ∧ kind = SnapKind.active then
      match getSharedPathBaseE info s.id with
      | (.error e, _) =>
        .error ("cannot determine shared path for snapshot " ++ s.id ++ ": " ++ e)
      | (.ok sharedBase, regs) =>
        let targetUpperPath := goJoin [sharedBase, "fs"]
        let targetWorkPath := goJoin [sharedBase, "work"]
        let ops0 := [FsOp.mkdirAll targetUpperPath 0o755, FsOp.mkdirAll targetWorkPath 0o711]
        let ops1 :=
          match mapped with
          | some ug => ops0 ++ [FsOp.lchown targetUpperPath ug.1 ug.2]
          | none => ops0
        let marker := getSnapshotPath o s.id
        let ops2 := if stat marker then ops1 else ops1 ++ [FsOp.mkdir marker 0o700]
        let m := mountsE o stat s info
        .ok ⟨m.1, ops2, regs ++ m.2⟩
    else
      let localRoot := getSnapshotsRoot o
      let prep := prepareDirectoryOps localRoot kind tmpName
      let ops1 :=
        match mapped with
        | some ug => prep.2 ++ [FsOp.lchown (goJoin [prep.1, "fs"]) ug.1 ug.2]
        | none => prep.2
      let finalPath := getSnapshotPath o s.id
      let ops2 := ops1 ++ [FsOp.rename prep.1 finalPath]
      let m := mountsE o stat s info
      .ok ⟨m.1, ops2, m.2⟩

/-- Mirror of `getCleanupDirectories` (lines 632-673): directories under
`<root>/snapshots` whose basename is not a live metadata id, plus, when short
base paths are enabled, the same under `parent(parent(root))/l`.  `listing`
models `os.Open` + `Readdirnames` (`none` when the open fails). -/
def getCleanupDirectoriesM (o : SnapConfig) (ids : List String)
    (listing : String → Option (List String)) : List String :=
  let snapshotDir := goJoin [o.root, "snapshots"]
  let cleanup1 :=
    match listing snapshotDir with
    | some dirs => (dirs.filter (fun d => ¬ ids.contains d)).map (fun d => goJoin [snapshotDir, d])
    | none => []
  let cleanup2 :=
    if o.shortBasePaths then
      let shortSnapshotDir := goJoin [goDir (goDir o.root), "l"]
      match listing shortSnapshotDir with
      | some dirs =>
        (dirs.filter (fun d => ¬ ids.contains d)).map (fun d => goJoin [shortSnapshotDir, d])
      | none => []
    else []
  cleanup1 ++ cleanup2

/-- Mirror of `Cleanup` (lines 604-617): the paths passed to `os.RemoveAll`
are exactly the cleanup candidates. -/
def CleanupOp (o : SnapConfig) (ids : List String)
    (listing : String → Option (List String)) : List String :=
  getCleanupDirectoriesM o ids listing

structure RemoveOutcome where
  storeAfterKeys : List String
  removedPaths : List String
  sharedPreserved : Option String
  regs : List RegEvent
deriving Repr

/-- Mirror of `Remove` (lines 492-569): pre-read the snapshot info, remember
(but never delete) the shared base for a shared snapshot, remove the metadata
record, and — in synchronous mode — pass the local cleanup candidates to
`os.RemoveAll`.  The `os.RemoveAll` on the shared base is commented out in the
source, so `removedPaths` never contains it. -/
def RemoveOp (o : SnapConfig) (key : String)
    (getInfoRes : Option (String × SnapInfo))
    (ids : List String)
    (listing : String → Option (List String))
    (storeKeys : List String) : RemoveOutcome :=
  let idInfo :=
    match getInfoRes with
    | some p => p
    | none => ("", ⟨SnapKind.unknown, none⟩)
  let shared :=
    if idInfo.1 ≠ "" ∧ isSharedSnapshot idInfo.2 = true then
      match getSharedPathBaseE idInfo.2 idInfo.1 with
      | (.ok base, regs) => (some base, regs)
      | (.error _, regs) => (none, regs)
    else (none, [])
  let localDirs := if o.asyncRemove then [] else getCleanupDirectoriesM o ids listing
  { storeAfterKeys := storeKeys.filter (fun k => k ≠ key)
    removedPaths := localDirs
    sharedPreserved := shared.1
    regs := shared.2 }

/-- The surviving paths after `os.RemoveAll` has been applied to each element
of `removed`: a path is deleted iff some removed path is it or an ancestor. -/
def applyRemovals (fsSet : List String) (removed : List String) : List String :=
  fsSet.filter (fun p => ¬ removed.any (fun r => pathAncestor r p))

/-! ## Path-mapping index (`path_mapping.go`). -/

structure PathMapping where
  podHash : String
  snapshotHash : String
  nsName : String
  podName : String
  containerName : String
  snapshotID : String
  createdAt : Nat
  lastAccessed : Nat
deriving DecidableEq, Repr

/-- Mirror of `cleanupNonExistentMappings`: drop every record whose directory
`<basePath>/<podHash>/<snapshotHash>` no longer exists. -/
def cleanupNonExistentMappingsM (basePath : String) (dirExists : String → Bool)
    (st : List (String × PathMapping)) : List (String × PathMapping) :=
  st.filter (fun e => dirExists (goJoin [basePath, e.2.podHash, e.2.snapshotHash]))

/-- Mirror of `savePathMappings`: every persistence pass first runs the
orphan cleanup, then serializes; the in-memory state it leaves behind. -/
def savePathMappingsM (basePath : String) (dirExists : String → Bool)
    (st : List (String × PathMapping)) : List (String × PathMapping) :=
  cleanupNonExistentMappingsM basePath dirExists st

/-- Mirror of `RegisterPathMapping`: upsert preserving `created_at`, then
persist via `savePathMappings` (which performs the orphan cleanup). -/
def RegisterPathMappingM (basePath podHash snapshotHash nsName podName containerName
    snapshotID : String) (now : Nat) (dirExists : String → Bool)
    (st : List (String × PathMapping)) : List (String × PathMapping) :=
  let key := podHash ++ "/" ++ snapshotHash
  let st' :=
    if (st.lookup key).isSome then
      st.map (fun e =>
        if e.1 = key then
          (e.1,
           { e.2 with
             nsName := nsName
             podName := podName
             containerName := containerName
             snapshotID := snapshotID
             lastAccessed := now })
        else e)
    else
      st ++ [(key, ⟨podHash, snapshotHash, nsName, podName, containerName, snapshotID, now, now⟩)]
  savePathMappingsM basePath dirExists st'

/-- Mirror of `LookupPathMapping`: returns the record (with refreshed
`last_accessed`) and the updated state; never removes a record. -/
def LookupPathMappingM (podHash snapshotHash : String) (now : Nat)
    (st : List (String × PathMapping)) : Option PathMapping × List (String × PathMapping) :=
  let key := podHash ++ "/" ++ snapshotHash
  match st.lookup key with
  | some m =>
    (some { m with lastAccessed := now },
     st.map (fun e => if e.1 = key then (e.1, { e.2 with lastAccessed := now }) else e))
  | none => (none, st)

/-- Mirror of `LoadPathMappings`: `json.Unmarshal` into the existing map
merges — file entries overwrite equal keys, all other keys survive; a missing
file (`none`) changes nothing. -/
def LoadPathMappingsM (fileContent : Option (List (String × PathMapping)))
    (st : List (String × PathMapping)) : List (String × PathMapping) :=
  match fileContent with
  | none => st
  | some file => st.filter (fun e => (file.lookup e.1).isNone) ++ file

/-- Mirror of `CleanupStaleMappings`: evict records whose `last_accessed` is
older than `maxAge`; persist only when something was removed. -/
def CleanupStaleMappingsM (basePath : String) (maxAge now : Nat) (dirExists : String → Bool)
    (st : List (String × PathMapping)) : List (String × PathMapping) :=
  let st' := st.filter (fun e => ¬ now - e.2.lastAccessed > maxAge)
  if st'.length < st.length then savePathMappingsM basePath dirExists st' else st'

/-! ## Claim theorems. -/

theorem getSharedPathBaseE_ok (info : SnapInfo) (ls : List (String × String)) (id : String)
    (sdp nsv pod cn : String)
    (hls : info.labels = some ls)
    (hS : ls.lookup LabelSharedDiskPath = some sdp)
    (hN : ls.lookup LabelK8sNamespace = some nsv)
    (hP : ls.lookup LabelK8sPodName = some pod)
    (hC : ls.lookup LabelK8sContainerName = some cn)
    (hid : id ≠ "") :
    getSharedPathBaseE info id =
      (.ok (goJoin [sdp, strTake (hashString (nsv ++ "/" ++ pod ++ "/" ++ cn)) 8,
            strTake (hashString id) 8]),
       [⟨sdp, strTake (hashString (nsv ++ "/" ++ pod ++ "/" ++ cn)) 8,
         strTake (hashString id) 8, nsv, pod, cn, id⟩]) := by
  unfold getSharedPathBaseE
  rw [hls]
  simp only [hS, hN, hP, hC]
  rw [if_neg hid]

/-- C2: for fixed identity labels and a non-empty snapshot id, the derived
shared base is `<shared_disk_path>/<pod_hash>/<snapshot_hash>` where the
hashes are the first 8 lowercase-hex characters of SHA-256 of
`"<namespace>/<pod_name>/<container_name>"` and of the id, and the result is
byte-identical across invocations (any `info` carrying the same four labels
yields the same string). -/
theorem C2_shared_base_deterministic_hash_path
    (info info' : SnapInfo) (ls ls' : List (String × String)) (id : String)
    (sdp nsv pod cn : String)
    (hls : info.labels = some ls)
    (hS : ls.lookup LabelSharedDiskPath = some sdp)
    (hN : ls.lookup LabelK8sNamespace = some nsv)
    (hP : ls.lookup LabelK8sPodName = some pod)
    (hC : ls.lookup LabelK8sContainerName = some cn)
    (hid : id ≠ "")
    (hplain : PlainAbs sdp) :
    getSharedPathBase info id =
      .ok (sdp ++ "/" ++ strTake (hashString (nsv ++ "/" ++ pod ++ "/" ++ cn)) 8 ++ "/" ++
        strTake (hashString id) 8) ∧
    (info'.labels = some ls' →
      ls'.lookup LabelSharedDiskPath = some sdp →
      ls'.lookup LabelK8sNamespace = some nsv →
      ls'.lookup LabelK8sPodName = some pod →
      ls'.lookup LabelK8sContainerName = some cn →
      getSharedPathBase info' id = getSharedPathBase info id) := by
  have hmain : getSharedPathBase info id =
      .ok (sdp ++ "/" ++ strTake (hashString (nsv ++ "/" ++ pod ++ "/" ++ cn)) 8 ++ "/" ++
        strTake (hashString id) 8) := by
    unfold getSharedPathBase
    rw [getSharedPathBaseE_ok info ls id sdp nsv pod cn hls hS hN hP hC hid]
    rw [goJoin_three sdp _ _ hplain (plainSeg_hash8 _) (plainSeg_hash8 _)]
  refine ⟨hmain, fun hls' hS' hN' hP' hC' => ?_⟩
  rw [hmain]
  unfold getSharedPathBase
  rw [getSharedPathBaseE_ok info' ls' id sdp nsv pod cn hls' hS' hN' hP' hC' hid]
  rw [goJoin_three sdp _ _ hplain (plainSeg_hash8 _) (plainSeg_hash8 _)]

def sharedLabelsA : List (String × String) :=
  [(LabelUseSharedStorage, "true"), (LabelSharedDiskPath, "/shared/nb"),
   (LabelK8sNamespace, "default"), (LabelK8sPodName, "nb-test-0"),
   (LabelK8sContainerName, "pytorch")]

def sharedInfoA : SnapInfo := ⟨SnapKind.active, some sharedLabelsA⟩

theorem C2_shared_base_deterministic_hash_path_witness :
    getSharedPathBase sharedInfoA "42" =
      .ok ("/shared/nb" ++ "/" ++ strTake (hashString ("default" ++ "/" ++ "nb-test-0" ++ "/" ++ "pytorch")) 8 ++ "/" ++
        strTake (hashString "42") 8) :=
  (C2_shared_base_deterministic_hash_path sharedInfoA sharedInfoA sharedLabelsA sharedLabelsA
    "42" "/shared/nb" "default" "nb-test-0" "pytorch" rfl rfl rfl rfl rfl
    (by decide) (by decide)).1

/-- Modelled from the spec: the "Configuration safety" rule of §4.3 (also
described as implemented in the repository's `CRITICAL_PATH_CONFLICT_FIX.md`),
which is absent from `getSharedPathBase` in `overlay.go`: when
`shared_disk_path` equals the engine's derived
`shared_storage_base = parent(parent(root))`, resolution of the shared path
must fail with the distinguished conflict error before any path is built. -/
def getSharedPathBaseChecked (o : SnapConfig) (info : SnapInfo) (id : String) :
    Except String String :=
  match info.labels with
  | none => .error "missing labels for shared storage path construction"
  | some ls =>
    match ls.lookup LabelSharedDiskPath, ls.lookup LabelK8sNamespace,
        ls.lookup LabelK8sPodName, ls.lookup LabelK8sContainerName with
    | some sharedDiskPath, some kubeNamespace, some podName, some containerName =>
      if id = "" then .error "snapshot ID is required for shared storage path"
      else
        let sharedStorageBase := goDir (goDir o.root)
        if sharedDiskPath = sharedStorageBase then
          .error "shared path conflicts with snapshotter layout"
        else
          let podIdentifier := kubeNamespace ++ "/" ++ podName ++ "/" ++ containerName
          .ok (goJoin [sharedDiskPath, strTake (hashString podIdentifier) 8,
            strTake (hashString id) 8])
    | _, _, _, _ => .error missingLabelsMsg

def isMkdirAllOp : FsOp → Bool
  | FsOp.mkdirAll _ _ => true
  | _ => false

def conflictLabels : List (String × String) :=
  [(LabelUseSharedStorage, "true"), (LabelSharedDiskPath, "/s"),
   (LabelK8sNamespace, "default"), (LabelK8sPodName, "nb-test-0"),
   (LabelK8sContainerName, "pytorch")]

def conflictInfo : SnapInfo := ⟨SnapKind.active, some conflictLabels⟩

def conflictConfig : SnapConfig :=
  ⟨"/s/d/io.containerd.snapshotter.v1.overlayfs", false, [], false, true⟩

/-- C1: the claim requires that when `shared_disk_path` equals
`parent(parent(root))` the resolution fails with the distinguished conflict
error, every shared-create returns it, and no directories are created.  The
code has no such check: at the exact conflict configuration
(`root = "/s/d/io.containerd.snapshotter.v1.overlayfs"`, so
`shared_storage_base = "/s"`, and label `shared_disk_path = "/s"`),
`getSharedPathBase` succeeds, `createSnapshot` with kind `Active` succeeds,
and two shared directories are created via `os.MkdirAll` — while the
spec-modelled checked resolver returns the conflict error there.  The code
contradicts the spec and the repository's own fix documentation. -/
theorem C1_conflict_check_missing_in_code :
    goDir (goDir conflictConfig.root) = "/s" ∧
    (getSharedPathBase conflictInfo "42").isOk = true ∧
    getSharedPathBaseChecked conflictConfig conflictInfo "42" =
      .error "shared path conflicts with snapshotter layout" ∧
    (createSnapshotE conflictConfig SnapKind.active ⟨"42", SnapKind.active, []⟩ conflictInfo
        (fun _ => none) (fun _ _ => .error "unused") "new-1").map
      (fun r => (r.ops.filter isMkdirAllOp).length) = .ok 2 := by
  refine ⟨rfl, rfl, rfl, rfl⟩

/-- All four shared-placement labels are present (presence only — the code
never tests for emptiness). -/
def hasAllSharedLabels (ls : List (String × String)) : Bool :=
  (ls.lookup LabelSharedDiskPath).isSome && (ls.lookup LabelK8sNamespace).isSome &&
  (ls.lookup LabelK8sPodName).isSome && (ls.lookup LabelK8sContainerName).isSome

theorem getSharedPathBaseE_missing (info : SnapInfo) (ls : List (String × String)) (id : String)
    (hls : info.labels = some ls) (hall : hasAllSharedLabels ls = false) :
    getSharedPathBaseE info id = (.error missingLabelsMsg, []) := by
  unfold getSharedPathBaseE
  rw [hls]
  unfold hasAllSharedLabels at hall
  cases hS : ls.lookup LabelSharedDiskPath with
  | none => simp only [hS]
  | some sdp =>
    cases hN : ls.lookup LabelK8sNamespace with
    | none => simp only [hS, hN]
    | some nsv =>
      cases hP : ls.lookup LabelK8sPodName with
      | none => simp only [hS, hN, hP]
      | some pod =>
        cases hC : ls.lookup LabelK8sContainerName with
        | none => simp only [hS, hN, hP, hC]
        | some cn =>
          rw [hS, hN, hP, hC] at hall
          simp at hall

/-- C6 (amended): for an Active shared create, the distinguished error
"missing one or more required labels for shared storage path (sharedPath,
namespace, podName, containerName)" is returned exactly when one of the four
labels `shared-disk-path`, `k8s-namespace`, `k8s-pod-name`,
`k8s-container-name` is absent — presence is all the code checks, emptiness is
not tested — and shared-path resolution succeeds exactly when all four are
present and the snapshot id is non-empty; when a label is absent,
`createSnapshot` fails with that error wrapped in its "cannot determine shared
path" context. -/
theorem C6_missing_labels_means_absent_label
    (o : SnapConfig) (s : Snapshot) (info : SnapInfo) (ls : List (String × String))
    (statUIDGID : String → Option (Nat × Nat))
    (rootPair : String → String → Except String (Nat × Nat))
    (tmpName : String) (mapped : Option (Nat × Nat))
    (hls : info.labels = some ls)
    (hshared : isSharedSnapshot info = true)
    (hmap : deriveUidGid o info s.parentIDs statUIDGID rootPair = .ok mapped) :
    (getSharedPathBase info s.id = .error missingLabelsMsg ↔ hasAllSharedLabels ls = false) ∧
    ((∃ p, getSharedPathBase info s.id = .ok p) ↔
      (hasAllSharedLabels ls = true ∧ s.id ≠ "")) ∧
    (hasAllSharedLabels ls = false →
      createSnapshotE o SnapKind.active s info statUIDGID rootPair tmpName =
        .error ("cannot determine shared path for snapshot " ++ s.id ++ ": " ++
          missingLabelsMsg)) := by
  by_cases hall : hasAllSharedLabels ls = true
  · have h4 := hall
    unfold hasAllSharedLabels at h4
    rw [Bool.and_eq_true, Bool.and_eq_true, Bool.and_eq_true] at h4
    obtain ⟨⟨⟨hS, hN⟩, hP⟩, hC⟩ := h4
    rw [Option.isSome_iff_exists] at hS hN hP hC
    obtain ⟨sdp, hS⟩ := hS
    obtain ⟨nsv, hN⟩ := hN
    obtain ⟨pod, hP⟩ := hP
    obtain ⟨cn, hC⟩ := hC
    by_cases hid : s.id = ""
    · have hresE : getSharedPathBaseE info s.id =
          (.error "snapshot ID is required for shared storage path", []) := by
        unfold getSharedPathBaseE
        rw [hls]
        simp only [hS, hN, hP, hC]
        rw [if_pos hid]
      refine ⟨?_, ?_, ?_⟩
      · unfold getSharedPathBase
        rw [hresE]
        constructor
        · intro h
          simp only [Except.error.injEq] at h
          exact absurd h (by decide)
        · intro h
          rw [hall] at h
          simp at h
      · unfold getSharedPathBase
        rw [hresE]
        constructor
        · intro ⟨p, hp⟩
          simp at hp
        · intro ⟨_, hne⟩
          exact absurd hid hne
      · intro h
        rw [hall] at h
        simp at h
    · have hresE := getSharedPathBaseE_ok info ls s.id sdp nsv pod cn hls hS hN hP hC hid
      refine ⟨?_, ?_, ?_⟩
      · unfold getSharedPathBase
        rw [hresE]
        constructor
        · intro h
          simp at h
        · intro h
          rw [hall] at h
          simp at h
      · unfold getSharedPathBase
        rw [hresE]
        exact ⟨fun _ => ⟨hall, hid⟩, fun _ => ⟨_, rfl⟩⟩
      · intro h
        rw [hall] at h
        simp at h
  · have hallf : hasAllSharedLabels ls = false := by
      cases h : hasAllSharedLabels ls
      · rfl
      · exact absurd h hall
    have hresE := getSharedPathBaseE_missing info ls s.id hls hallf
    refine ⟨?_, ?_, ?_⟩
    · unfold getSharedPathBase
      rw [hresE]
      simp [hallf]
    · unfold getSharedPathBase
      rw [hresE]
      constructor
      · intro ⟨p, hp⟩
        simp at hp
      · intro ⟨h1, _⟩
        rw [hallf] at h1
        simp at h1
    · intro _
      simp [createSnapshotE, hmap, hresE, hshared]

def plainConfig : SnapConfig :=
  ⟨"/var/lib/containerd/io.containerd.snapshotter.v1.overlayfs", false, [], false, false⟩

def missingLabelSet : List (String × String) :=
  [(LabelUseSharedStorage, "true"), (LabelSharedDiskPath, "/shared/nb"),
   (LabelK8sNamespace, "default"), (LabelK8sPodName, "nb-test-0")]

def missingLabelInfo : SnapInfo := ⟨SnapKind.active, some missingLabelSet⟩

theorem C6_missing_labels_means_absent_label_witness :
    getSharedPathBase missingLabelInfo "9" = .error missingLabelsMsg ∧
    createSnapshotE plainConfig SnapKind.active ⟨"9", SnapKind.active, []⟩ missingLabelInfo
      (fun _ => none) (fun _ _ => .error "unused") "new-1" =
      .error ("cannot determine shared path for snapshot " ++ "9" ++ ": " ++ missingLabelsMsg) :=
  have h := C6_missing_labels_means_absent_label plainConfig ⟨"9", SnapKind.active, []⟩
    missingLabelInfo missingLabelSet (fun _ => none) (fun _ _ => .error "unused")
    "new-1" none rfl rfl rfl
  ⟨h.1.mpr rfl, h.2.2 rfl⟩

def emptySdpLabels : List (String × String) :=
  [(LabelUseSharedStorage, "true"), (LabelSharedDiskPath, ""),
   (LabelK8sNamespace, "default"), (LabelK8sPodName, "nb-test-0"),
   (LabelK8sContainerName, "pytorch")]

def emptySdpInfo : SnapInfo := ⟨SnapKind.active, some emptySdpLabels⟩

/-- C6 counterexample: the claim says the missing-labels error is raised
exactly when one of the four labels is absent **or empty**, and that
resolution succeeds only when all four are non-empty.  With
`shared_disk_path` present but empty, `getSharedPathBase` nevertheless
succeeds: the code checks presence only. -/
theorem C6_empty_label_still_resolves :
    lookupLabel emptySdpInfo LabelSharedDiskPath = some "" ∧
    (getSharedPathBase emptySdpInfo "7").isOk = true ∧
    getSharedPathBase emptySdpInfo "7" ≠ .error missingLabelsMsg := by
  refine ⟨rfl, rfl, fun h => ?_⟩
  have hok : (getSharedPathBase emptySdpInfo "7").isOk = true := rfl
  rw [h] at hok
  simp [Except.isOk, Except.toBool] at hok

/-- The upper path actually used by `mounts`: the resolver's answer, or the
local default on resolver failure. -/
def actualUpperPath (o : SnapConfig) (id : String) (info : SnapInfo) : String :=
  match (determineUpperPathE o id info).1 with
  | .ok p => p
  | .error _ => getSnapshotFSPath o id

/-- The work path actually used by `mounts`. -/
def actualWorkPath (o : SnapConfig) (id : String) (info : SnapInfo) : String :=
  match (determineWorkPathE o id info).1 with
  | .ok p => p
  | .error _ => getSnapshotWorkPath o id

/-- The overlay mount produced in the Active-with-parents branch of
`mounts`. -/
theorem mountsE_active_general (o : SnapConfig) (stat : String → Bool) (s : Snapshot)
    (info : SnapInfo) (hemp : s.parentIDs.isEmpty = false) (hA : s.kind = SnapKind.active) :
    (mountsE o stat s info).1 =
      [⟨"overlay", "overlay",
        (remapOptions o info ++
          ["workdir=" ++ actualWorkPath o s.id info,
           "upperdir=" ++ actualUpperPath o s.id info]) ++
        ["lowerdir=" ++ joinColon (s.parentIDs.map (resolveParentPath o stat))] ++
        o.options⟩] := by
  obtain ⟨sid, skind, spar⟩ := s
  cases spar with
  | nil => simp at hemp
  | cons p ps =>
    cases skind with
    | active => rfl
    | view => simp at hA
    | committed => simp at hA
    | unknown => simp at hA

/-- The overlay mount produced in the general non-Active branch of
`mounts`. -/
theorem mountsE_general_nonactive (o : SnapConfig) (stat : String → Bool) (s : Snapshot)
    (info : SnapInfo) (hemp : s.parentIDs.isEmpty = false)
    (hAne : ¬ s.kind = SnapKind.active)
    (hone : ¬ (s.parentIDs.length = 1 ∧ s.kind = SnapKind.view)) :
    (mountsE o stat s info).1 =
      [⟨"overlay", "overlay",
        remapOptions o info ++
        ["lowerdir=" ++ joinColon (s.parentIDs.map (resolveParentPath o stat))] ++
        o.options⟩] := by
  obtain ⟨sid, skind, spar⟩ := s
  cases spar with
  | nil => simp at hemp
  | cons p ps =>
    cases skind with
    | active => exact absurd rfl hAne
    | view =>
      cases ps with
      | nil => exact absurd ⟨rfl, rfl⟩ hone
      | cons q qs => rfl
    | committed =>
      cases ps with
      | nil => rfl
      | cons q qs => rfl
    | unknown =>
      cases ps with
      | nil => rfl
      | cons q qs => rfl

/-- The bind mount produced for a snapshot without parents. -/
theorem mountsE_no_parents (o : SnapConfig) (stat : String → Bool) (s : Snapshot)
    (info : SnapInfo) (hp : s.parentIDs = []) :
    (mountsE o stat s info).1 =
      [⟨"bind", actualUpperPath o s.id info,
        remapOptions o info ++ [(if s.kind = SnapKind.view then "ro" else "rw"), "rbind"]⟩] := by
  obtain ⟨sid, skind, spar⟩ := s
  cases spar with
  | nil => rfl
  | cons p ps => simp at hp

theorem mountsE_view_single (o : SnapConfig) (stat : String → Bool) (s : Snapshot)
    (info : SnapInfo) (hemp : s.parentIDs.isEmpty = false)
    (hV : s.kind = SnapKind.view) (hlen : s.parentIDs.length = 1) :
    (mountsE o stat s info).1 =
      [⟨"bind", resolveParentPath o stat (s.parentIDs.headD ""),
        remapOptions o info ++ ["ro", "rbind"]⟩] := by
  obtain ⟨sid, skind, spar⟩ := s
  cases spar with
  | nil => simp at hemp
  | cons p ps =>
    cases ps with
    | nil =>
      cases skind with
      | active => simp at hV
      | view => rfl
      | committed => simp at hV
      | unknown => simp at hV
    | cons q qs => simp at hlen

/-- C3: in the general overlay case (Active with parents, or View with more
than one parent) the `lowerdir=` option is the `":"`-join of the per-parent
resolved paths, mapped over the metadata store's parent list in order,
nearest parent first. -/
theorem C3_lowerdir_preserves_parent_order
    (o : SnapConfig) (stat : String → Bool) (s : Snapshot) (info : SnapInfo)
    (hne : s.parentIDs ≠ [])
    (hkind : s.kind = SnapKind.active ∨ (s.kind = SnapKind.view ∧ 1 < s.parentIDs.length)) :
    ∃ opts, (mountsE o stat s info).1 = [⟨"overlay", "overlay", opts⟩] ∧
      "lowerdir=" ++ joinColon (s.parentIDs.map (resolveParentPath o stat)) ∈ opts := by
  have hemp : s.parentIDs.isEmpty = false := by
    cases hp : s.parentIDs with
    | nil => exact absurd hp hne
    | cons a l => rfl
  rcases hkind with hA | ⟨hV, hlen⟩
  · exact ⟨_, mountsE_active_general o stat s info hemp hA, by simp [List.mem_append]⟩
  · have hAne : ¬ s.kind = SnapKind.active := by rw [hV]; simp
    have hone : ¬ (s.parentIDs.length = 1 ∧ s.kind = SnapKind.view) := by
      intro ⟨h1, _⟩
      omega
    exact ⟨_, mountsE_general_nonactive o stat s info hemp hAne hone, by simp [List.mem_append]⟩

def parentChainSnap : Snapshot := ⟨"10", SnapKind.active, ["9", "8", "7"]⟩

def noLabelInfo : SnapInfo := ⟨SnapKind.active, none⟩

theorem C3_lowerdir_preserves_parent_order_witness :
    ∃ opts, (mountsE plainConfig (fun _ => true) parentChainSnap noLabelInfo).1 =
        [⟨"overlay", "overlay", opts⟩] ∧
      "lowerdir=" ++ joinColon (parentChainSnap.parentIDs.map
        (resolveParentPath plainConfig (fun _ => true))) ∈ opts :=
  C3_lowerdir_preserves_parent_order plainConfig (fun _ => true) parentChainSnap noLabelInfo
    (by decide) (Or.inl rfl)

/-- C7 (amended): the options of every overlay (non-bind) mount appear in
the stable order actually implemented: `uidmap=`/`gidmap=` first (when
remapping is enabled), then for Active `workdir=` and `upperdir=`, then
`lowerdir=` with parents nearest-first, and the engine-configured default
options last; for the non-Active overlay mounts (a View with more than one
parent, or any other kind with parents outside the single-parent-View bind
case) the order is `uidmap=`/`gidmap=`, then `lowerdir=`, then the
engine-configured options last; the bind-mount variants carry only the remap
options plus `rw`/`ro` and `rbind`, never the engine-configured options. -/
theorem C7_option_order_as_implemented
    (o : SnapConfig) (stat : String → Bool) (s : Snapshot) (info : SnapInfo) :
    (s.parentIDs ≠ [] → s.kind = SnapKind.active →
      (mountsE o stat s info).1 = [⟨"overlay", "overlay",
        (remapOptions o info ++
          ["workdir=" ++ actualWorkPath o s.id info,
           "upperdir=" ++ actualUpperPath o s.id info]) ++
        ["lowerdir=" ++ joinColon (s.parentIDs.map (resolveParentPath o stat))] ++
        o.options⟩]) ∧
    (s.parentIDs ≠ [] → ¬ s.kind = SnapKind.active →
      ¬ (s.parentIDs.length = 1 ∧ s.kind = SnapKind.view) →
      (mountsE o stat s info).1 = [⟨"overlay", "overlay",
        remapOptions o info ++
        ["lowerdir=" ++ joinColon (s.parentIDs.map (resolveParentPath o stat))] ++
        o.options⟩]) ∧
    (s.parentIDs = [] →
      (mountsE o stat s info).1 = [⟨"bind", actualUpperPath o s.id info,
        remapOptions o info ++ [(if s.kind = SnapKind.view then "ro" else "rw"), "rbind"]⟩]) ∧
    (s.parentIDs.length = 1 → s.kind = SnapKind.view →
      (mountsE o stat s info).1 = [⟨"bind", resolveParentPath o stat (s.parentIDs.headD ""),
        remapOptions o info ++ ["ro", "rbind"]⟩]) := by
  refine ⟨?_, ?_, ?_, ?_⟩
  · intro hne hA
    have hemp : s.parentIDs.isEmpty = false := by
      cases hp : s.parentIDs with
      | nil => exact absurd hp hne
      | cons a l => rfl
    exact mountsE_active_general o stat s info hemp hA
  · intro hne hAne hone
    have hemp : s.parentIDs.isEmpty = false := by
      cases hp : s.parentIDs with
      | nil => exact absurd hp hne
      | cons a l => rfl
    exact mountsE_general_nonactive o stat s info hemp hAne hone
  · intro hp
    exact mountsE_no_parents o stat s info hp
  · intro hlen hV
    have hemp : s.parentIDs.isEmpty = false := by
      cases hp : s.parentIDs with
      | nil => rw [hp] at hlen; simp at hlen
      | cons a l => rfl
    exact mountsE_view_single o stat s info hemp hV hlen

def remapConfig : SnapConfig := ⟨"/v/d/ol", false, ["index=off"], true, false⟩

def remapLabels : List (String × String) :=
  [(LabelSnapshotUIDMapping, "0:1000:65536"), (LabelSnapshotGIDMapping, "0:1000:65536")]

def remapInfo : SnapInfo := ⟨SnapKind.active, some remapLabels⟩

theorem C7_option_order_as_implemented_witness :
    (mountsE remapConfig (fun _ => true) ⟨"3", SnapKind.active, ["7"]⟩ remapInfo).1 =
      [⟨"overlay", "overlay",
        (remapOptions remapConfig remapInfo ++
          ["workdir=" ++ actualWorkPath remapConfig "3" remapInfo,
           "upperdir=" ++ actualUpperPath remapConfig "3" remapInfo]) ++
        ["lowerdir=" ++ joinColon (["7"].map (resolveParentPath remapConfig (fun _ => true)))] ++
        remapConfig.options⟩] ∧
    (mountsE remapConfig (fun _ => true) ⟨"4", SnapKind.view, ["8", "7"]⟩ remapInfo).1 =
      [⟨"overlay", "overlay",
        remapOptions remapConfig remapInfo ++
        ["lowerdir=" ++
          joinColon (["8", "7"].map (resolveParentPath remapConfig (fun _ => true)))] ++
        remapConfig.options⟩] :=
  ⟨(C7_option_order_as_implemented remapConfig (fun _ => true)
      ⟨"3", SnapKind.active, ["7"]⟩ remapInfo).1 (by decide) rfl,
   (C7_option_order_as_implemented remapConfig (fun _ => true)
      ⟨"4", SnapKind.view, ["8", "7"]⟩ remapInfo).2.1 (by decide) (by decide) (by decide)⟩

/-- C7 counterexample: the claim puts the engine-configured options first and
`upperdir=`/`workdir=` after `lowerdir=`.  At a concrete Active snapshot with
one parent, remapping enabled and engine option `index=off`, the code emits
`[uidmap, gidmap, workdir=, upperdir=, lowerdir=, index=off]`, which differs
from the claimed order `[index=off, uidmap, gidmap, lowerdir=, upperdir=,
workdir=]`. -/
theorem C7_claimed_order_refuted :
    (mountsE remapConfig (fun _ => true) ⟨"3", SnapKind.active, ["7"]⟩ remapInfo).1 =
      [⟨"overlay", "overlay",
        ["uidmap=0:1000:65536", "gidmap=0:1000:65536",
         "workdir=/v/d/ol/snapshots/3/work", "upperdir=/v/d/ol/snapshots/3/fs",
         "lowerdir=/v/d/ol/snapshots/7/fs", "index=off"]⟩] ∧
    ["uidmap=0:1000:65536", "gidmap=0:1000:65536",
     "workdir=/v/d/ol/snapshots/3/work", "upperdir=/v/d/ol/snapshots/3/fs",
     "lowerdir=/v/d/ol/snapshots/7/fs", "index=off"] ≠
    ["index=off", "uidmap=0:1000:65536", "gidmap=0:1000:65536",
     "lowerdir=/v/d/ol/snapshots/7/fs", "upperdir=/v/d/ol/snapshots/3/fs",
     "workdir=/v/d/ol/snapshots/3/work"] := by
  exact ⟨rfl, by decide⟩

/-- Membership in one root's contribution to the cleanup candidate list. -/
theorem mem_cleanup_part (ids : List String) (listing : String → Option (List String))
    (dir x : String) :
    (x ∈ (match listing dir with
          | some dirs =>
            (dirs.filter (fun d => ¬ ids.contains d)).map (fun d => goJoin [dir, d])
          | none => [])) ↔
      ∃ ds, listing dir = some ds ∧ ∃ d ∈ ds, d ∉ ids ∧ x = goJoin [dir, d] := by
  cases hL : listing dir with
  | none => simp
  | some ds =>
    simp only [List.mem_map, List.mem_filter, Option.some.injEq]
    constructor
    · rintro ⟨d, ⟨hd, hni⟩, hx⟩
      exact ⟨ds, rfl, d, hd, by simpa using hni, hx.symm⟩
    · rintro ⟨ds1, hds, d, hd, hni, hx⟩
      cases hds
      exact ⟨d, ⟨hd, by simpa using hni⟩, hx.symm⟩

/-- C8: the Cleanup candidate set is exactly the directories under the
canonical snapshots root `<root>/snapshots` whose basename is not in the
metadata id-set, united — when short base paths are enabled — with the
directories under the short root `parent(parent(root))/l` whose basename is
not in the id-set; and `Cleanup` removes exactly that candidate list and
nothing else. -/
theorem C8_cleanup_candidates_characterized
    (o : SnapConfig) (ids : List String) (listing : String → Option (List String))
    (x : String) :
    CleanupOp o ids listing = getCleanupDirectoriesM o ids listing ∧
    (x ∈ getCleanupDirectoriesM o ids listing ↔
      (∃ ds, listing (goJoin [o.root, "snapshots"]) = some ds ∧
        ∃ d ∈ ds, d ∉ ids ∧ x = goJoin [goJoin [o.root, "snapshots"], d]) ∨
      (o.shortBasePaths = true ∧
        ∃ ds, listing (goJoin [goDir (goDir o.root), "l"]) = some ds ∧
          ∃ d ∈ ds, d ∉ ids ∧
            x = goJoin [goJoin [goDir (goDir o.root), "l"], d])) := by
  refine ⟨rfl, ?_⟩
  unfold getCleanupDirectoriesM
  rw [List.mem_append]
  by_cases hs : o.shortBasePaths = true
  · rw [if_pos hs]
    rw [mem_cleanup_part, mem_cleanup_part]
    constructor
    · rintro (h | h)
      · exact Or.inl h
      · exact Or.inr ⟨hs, h⟩
    · rintro (h | ⟨_, h⟩)
      · exact Or.inl h
      · exact Or.inr h
  · rw [if_neg hs]
    rw [mem_cleanup_part]
    constructor
    · rintro (h | h)
      · exact Or.inl h
      · simp at h
    · rintro (h | ⟨hss, h⟩)
      · exact Or.inl h
      · exact absurd hss hs

/-- No cleanup candidate is the shared base or an ancestor of it, provided
the two snapshots roots are not ancestors of the probed path. -/
theorem cleanup_dirs_not_ancestor (o : SnapConfig) (ids : List String)
    (listing : String → Option (List String)) (p : String)
    (hplainroot : PlainAbs o.root)
    (hplainssb : PlainAbs (goDir (goDir o.root)))
    (hlist : ∀ r ds, listing r = some ds → ∀ d ∈ ds, PlainSegL d.data)
    (hsep1 : pathAncestor (o.root ++ "/" ++ "snapshots") p = false)
    (hsep2 : pathAncestor (goDir (goDir o.root) ++ "/" ++ "l") p = false) :
    ∀ r ∈ getCleanupDirectoriesM o ids listing, pathAncestor r p = false := by
  intro r hr
  have hsnap : PlainSegL ("snapshots" : String).data := by decide
  have hl : PlainSegL ("l" : String).data := by decide
  have hcanon : goJoin [o.root, "snapshots"] = o.root ++ "/" ++ "snapshots" :=
    goJoin_two o.root "snapshots" hplainroot hsnap
  have hshort : goJoin [goDir (goDir o.root), "l"] = goDir (goDir o.root) ++ "/" ++ "l" :=
    goJoin_two (goDir (goDir o.root)) "l" hplainssb hl
  unfold getCleanupDirectoriesM at hr
  rw [List.mem_append] at hr
  simp only [mem_cleanup_part] at hr
  rcases hr with ⟨ds, hL, d, hd, _, hx⟩ | hr
  · have hdp : PlainSegL d.data := hlist _ _ hL d hd
    have hx2 : r = (o.root ++ "/" ++ "snapshots") ++ "/" ++ d := by
      rw [hx, hcanon]
      exact goJoin_two _ d (plainAbs_append_seg o.root "snapshots" hplainroot hsnap) hdp
    cases hanc : pathAncestor r p with
    | false => rfl
    | true =>
      rw [hx2] at hanc
      exact absurd (pathAncestor_of_extend _ d p hanc) (by rw [hsep1]; simp)
  · cases hsb : o.shortBasePaths with
    | false => rw [hsb] at hr; simp at hr
    | true =>
      rw [hsb] at hr
      rw [if_pos rfl] at hr
      simp only [mem_cleanup_part] at hr
      obtain ⟨ds, hL, d, hd, _, hx⟩ := hr
      have hdp : PlainSegL d.data := hlist _ _ hL d hd
      have hx2 : r = (goDir (goDir o.root) ++ "/" ++ "l") ++ "/" ++ d := by
        rw [hx, hshort]
        exact goJoin_two _ d (plainAbs_append_seg (goDir (goDir o.root)) "l" hplainssb hl) hdp
      cases hanc : pathAncestor r p with
      | false => rfl
      | true =>
        rw [hx2] at hanc
        exact absurd (pathAncestor_of_extend _ d p hanc) (by rw [hsep2]; simp)

/-- C4: for a shared-storage snapshot, `Remove(key)` removes the metadata
record and may pass local snapshot directories to `os.RemoveAll`, but the
shared base is only remembered (the deletion call is commented out): it is
never among the removed paths, and — provided the shared base lies outside the
two local snapshots roots — both the shared base and its `fs` subdirectory
survive the filesystem phase unchanged. -/
theorem C4_remove_retains_shared_base
    (o : SnapConfig) (key id : String) (info : SnapInfo) (base : String)
    (ids storeKeys : List String) (listing : String → Option (List String))
    (fsSet : List String)
    (hshared : isSharedSnapshot info = true)
    (hid : id ≠ "")
    (hbase : getSharedPathBase info id = .ok base)
    (hplainroot : PlainAbs o.root)
    (hplainssb : PlainAbs (goDir (goDir o.root)))
    (hlist : ∀ r ds, listing r = some ds → ∀ d ∈ ds, PlainSegL d.data)
    (hsep1 : pathAncestor (o.root ++ "/" ++ "snapshots") (base ++ "/" ++ "fs") = false)
    (hsep2 : pathAncestor (goDir (goDir o.root) ++ "/" ++ "l") (base ++ "/" ++ "fs") = false) :
    (RemoveOp o key (some (id, info)) ids listing storeKeys).sharedPreserved = some base ∧
    key ∉ (RemoveOp o key (some (id, info)) ids listing storeKeys).storeAfterKeys ∧
    base ∉ (RemoveOp o key (some (id, info)) ids listing storeKeys).removedPaths ∧
    (base ∈ fsSet →
      base ∈ applyRemovals fsSet (RemoveOp o key (some (id, info)) ids listing storeKeys).removedPaths) ∧
    ((base ++ "/" ++ "fs") ∈ fsSet →
      (base ++ "/" ++ "fs") ∈
        applyRemovals fsSet (RemoveOp o key (some (id, info)) ids listing storeKeys).removedPaths) := by
  have hb1 : (getSharedPathBaseE info id).1 = .ok base := hbase
  have hp : getSharedPathBaseE info id = (Except.ok base, (getSharedPathBaseE info id).2) := by
    conv_lhs => rw [← Prod.mk.eta (p := getSharedPathBaseE info id)]
    rw [hb1]
  have hout : RemoveOp o key (some (id, info)) ids listing storeKeys =
      { storeAfterKeys := storeKeys.filter (fun k => k ≠ key)
        removedPaths := if o.asyncRemove then [] else getCleanupDirectoriesM o ids listing
        sharedPreserved := some base
        regs := (getSharedPathBaseE info id).2 } := by
    unfold RemoveOp
    dsimp only
    rw [if_pos (⟨hid, hshared⟩ : id ≠ "" ∧ isSharedSnapshot info = true)]
    rw [hp]
  have hnoanc : ∀ r ∈ (if o.asyncRemove then [] else getCleanupDirectoriesM o ids listing),
      pathAncestor r (base ++ "/" ++ "fs") = false := by
    cases ha : o.asyncRemove with
    | true => intro r hr; simp at hr
    | false =>
      intro r hr
      simp only [if_neg (by simp : ¬ (false = true))] at hr
      exact cleanup_dirs_not_ancestor o ids listing (base ++ "/" ++ "fs")
        hplainroot hplainssb hlist hsep1 hsep2 r hr
  have hnoanc2 : ∀ r ∈ (if o.asyncRemove then [] else getCleanupDirectoriesM o ids listing),
      pathAncestor r base = false := by
    intro r hr
    cases hanc : pathAncestor r base with
    | false => rfl
    | true => exact absurd (pathAncestor_to_sub r base "fs" hanc) (by rw [hnoanc r hr]; simp)
  rw [hout]
  refine ⟨rfl, ?_, ?_, ?_, ?_⟩
  · simp [List.mem_filter]
  · intro hmem
    have := hnoanc2 base hmem
    unfold pathAncestor at this
    simp at this
  · intro hfs
    unfold applyRemovals
    rw [List.mem_filter]
    refine ⟨hfs, ?_⟩
    simp only [decide_eq_true_eq, List.any_eq_true]
    intro ⟨r, hr, hanc⟩
    rw [hnoanc2 r hr] at hanc
    cases hanc
  · intro hfs
    unfold applyRemovals
    rw [List.mem_filter]
    refine ⟨hfs, ?_⟩
    simp only [decide_eq_true_eq, List.any_eq_true]
    intro ⟨r, hr, hanc⟩
    rw [hnoanc r hr] at hanc
    cases hanc

def c4Base : String :=
  goJoin ["/nb", strTake (hashString ("n" ++ "/" ++ "p" ++ "/" ++ "c")) 8,
    strTake (hashString "1") 8]

def c4Labels : List (String × String) :=
  [(LabelUseSharedStorage, "true"), (LabelSharedDiskPath, "/nb"),
   (LabelK8sNamespace, "n"), (LabelK8sPodName, "p"), (LabelK8sContainerName, "c")]

def c4Info : SnapInfo := ⟨SnapKind.active, some c4Labels⟩

def c4Config : SnapConfig := ⟨"/s/d/ol", false, [], false, true⟩

set_option maxRecDepth 4000 in
set_option maxHeartbeats 1000000 in
theorem C4_remove_retains_shared_base_witness :
    (RemoveOp c4Config "k3" (some ("1", c4Info)) ["5"] (fun _ => some ["9"])
        ["k3", "k5"]).sharedPreserved = some c4Base ∧
    c4Base ∉ (RemoveOp c4Config "k3" (some ("1", c4Info)) ["5"] (fun _ => some ["9"])
        ["k3", "k5"]).removedPaths :=
  have h := C4_remove_retains_shared_base c4Config "k3" "1" c4Info c4Base ["5"] ["k3", "k5"]
    (fun _ => some ["9"]) [] rfl (by decide) rfl (by decide) (by decide)
    (by
      intro r ds hds d hd
      cases hds
      simp at hd
      subst hd
      decide)
    (by decide) (by decide)
  ⟨h.1, h.2.2.1⟩

/-- A non-shared snapshot produces no path-mapping registrations during mount
composition. -/
theorem mountsE_regs_empty_of_not_shared (o : SnapConfig) (stat : String → Bool)
    (s : Snapshot) (info : SnapInfo) (h : isSharedSnapshot info = false) :
    (mountsE o stat s info).2 = [] := by
  have hup : determineUpperPathE o s.id info = (.ok (getSnapshotFSPath o s.id), []) := by
    unfold determineUpperPathE
    rw [if_neg (by rw [h]; simp)]
  have hwk : determineWorkPathE o s.id info = (.ok (getSnapshotWorkPath o s.id), []) := by
    unfold determineWorkPathE
    rw [if_neg (by rw [h]; simp)]
  unfold mountsE
  simp only [hup, hwk]
  split
  · rfl
  · split
    · rfl
    · split
      · rfl
      · rfl

/-- C5 (amended): `Mounts(key)` returns exactly the mounts of the most recent
`Prepare` on the same metadata and filesystem state — same option strings,
same order — and it is pure for non-shared snapshots; for shared snapshots it
is **not** pure: composing mounts registers path mappings (a write to the
path-mapping index), as shown by the companion counterexample. -/
theorem C5_mounts_matches_prepare
    (o : SnapConfig) (s : Snapshot) (info : SnapInfo)
    (statUIDGID : String → Option (Nat × Nat))
    (rootPair : String → String → Except String (Nat × Nat))
    (tmpName : String) (res : CreateResult)
    (hok : createSnapshotE o SnapKind.active s info statUIDGID rootPair tmpName = .ok res) :
    MountsOp o (fun p => (statUIDGID p).isSome) (.ok s) (.ok info) =
      .ok (mountsE o (fun p => (statUIDGID p).isSome) s info) ∧
    res.mounts = (mountsE o (fun p => (statUIDGID p).isSome) s info).1 ∧
    (isSharedSnapshot info = false →
      (mountsE o (fun p => (statUIDGID p).isSome) s info).2 = []) := by
  refine ⟨rfl, ?_, mountsE_regs_empty_of_not_shared o _ s info⟩
  unfold createSnapshotE at hok
  cases hd : deriveUidGid o info s.parentIDs statUIDGID rootPair with
  | error e =>
    rw [hd] at hok
    simp at hok
  | ok mapped =>
    rw [hd] at hok
    dsimp only at hok
    by_cases hsh : isSharedSnapshot info = true ∧ SnapKind.active = SnapKind.active
    · rw [if_pos hsh] at hok
      cases hB : getSharedPathBaseE info s.id with
      | mk r regs =>
        rw [hB] at hok
        cases r with
        | error e => simp at hok
        | ok base =>
          simp only [Except.ok.injEq] at hok
          rw [← hok]
    · rw [if_neg hsh] at hok
      simp only [Except.ok.injEq] at hok
      rw [← hok]

def c5Labels : List (String × String) :=
  [(LabelUseSharedStorage, "true"), (LabelSharedDiskPath, "/nb2"),
   (LabelK8sNamespace, "n"), (LabelK8sPodName, "p"), (LabelK8sContainerName, "c")]

def c5Info : SnapInfo := ⟨SnapKind.active, some c5Labels⟩

/-- C5 counterexample: the claim says `Mounts` performs no writes to the
path-mapping index.  For a shared Active snapshot, composing the mounts calls
`getSharedPathBase` for the upper and the work directory, each performing a
`RegisterPathMapping` (which also rewrites the index file): the registration
effect list is non-empty. -/
theorem C5_mounts_writes_mapping_for_shared :
    (mountsE plainConfig (fun _ => true) ⟨"8", SnapKind.active, ["7"]⟩ c5Info).2.length = 2 ∧
    (mountsE plainConfig (fun _ => true) ⟨"8", SnapKind.active, ["7"]⟩ c5Info).2 ≠ [] := by
  refine ⟨rfl, fun h => ?_⟩
  have hlen : (mountsE plainConfig (fun _ => true) ⟨"8", SnapKind.active, ["7"]⟩ c5Info).2.length = 2 := rfl
  rw [h] at hlen
  simp at hlen

def noStat : String → Option (Nat × Nat) := fun _ => none

def c5Td : String := goJoin [getSnapshotsRoot plainConfig, "new-2"]

def c5Res : CreateResult :=
  ⟨(mountsE plainConfig (fun p => (noStat p).isSome) ⟨"12", SnapKind.active, []⟩ noLabelInfo).1,
   ([FsOp.mkdirTemp (getSnapshotsRoot plainConfig) "new-2",
     FsOp.mkdir (goJoin [c5Td, "fs"]) 0o755] ++
    [FsOp.mkdir (goJoin [c5Td, "work"]) 0o711]) ++
   [FsOp.rename c5Td (getSnapshotPath plainConfig "12")],
   (mountsE plainConfig (fun p => (noStat p).isSome) ⟨"12", SnapKind.active, []⟩ noLabelInfo).2⟩

theorem C5_mounts_matches_prepare_witness :
    MountsOp plainConfig (fun p => (noStat p).isSome) (.ok ⟨"12", SnapKind.active, []⟩)
        (.ok noLabelInfo) =
      .ok (mountsE plainConfig (fun p => (noStat p).isSome) ⟨"12", SnapKind.active, []⟩
        noLabelInfo) ∧
    c5Res.mounts =
      (mountsE plainConfig (fun p => (noStat p).isSome) ⟨"12", SnapKind.active, []⟩
        noLabelInfo).1 ∧
    (isSharedSnapshot noLabelInfo = false →
      (mountsE plainConfig (fun p => (noStat p).isSome) ⟨"12", SnapKind.active, []⟩
        noLabelInfo).2 = []) :=
  C5_mounts_matches_prepare plainConfig ⟨"12", SnapKind.active, []⟩ noLabelInfo noStat
    (fun _ _ => .error "unused") "new-2" c5Res rfl

/-- `List.lookup` finds only pairs present in the list. -/
theorem lookup_mem {β : Type} (l : List (String × β)) (k : String) (v : β)
    (h : l.lookup k = some v) : (k, v) ∈ l := by
  induction l with
  | nil => simp [List.lookup] at h
  | cons e rest ih =>
    rw [List.lookup] at h
    cases hk : k == e.1 with
    | true =>
      rw [hk] at h
      have hv : e.2 = v := Option.some.inj h
      have hke : k = e.1 := eq_of_beq hk
      rw [hke, ← hv]
      simp
    | false =>
      rw [hk] at h
      exact List.mem_cons_of_mem _ (ih h)

/-- C9 (amended): `load` and `lookup` never delete a path-mapping record, and
`register` preserves every record whose on-disk directory still exists (the
registered key keeps its pod/snapshot hashes) — but `register` runs the
orphan cleanup as part of every persistence pass, so records whose directory
is gone are deleted during the normal lifecycle, not only by the opt-in
staleness sweep (see the companion counterexample). -/
theorem C9_lifecycle_record_retention
    (basePath ph sh nsv pod cn sid : String) (now : Nat)
    (dirExists : String → Bool) (st : List (String × PathMapping))
    (k : String) (r : PathMapping)
    (hmem : (k, r) ∈ st)
    (hdir : dirExists (goJoin [basePath, r.podHash, r.snapshotHash]) = true) :
    (∃ r', (k, r') ∈ RegisterPathMappingM basePath ph sh nsv pod cn sid now dirExists st ∧
      r'.podHash = r.podHash ∧ r'.snapshotHash = r.snapshotHash) ∧
    (∃ r', (k, r') ∈ (LookupPathMappingM ph sh now st).2) ∧
    (∀ file, ∃ r', (k, r') ∈ LoadPathMappingsM (some file) st) := by
  refine ⟨?_, ?_, ?_⟩
  · unfold RegisterPathMappingM savePathMappingsM cleanupNonExistentMappingsM
    dsimp only
    by_cases hk : ((st.lookup (ph ++ "/" ++ sh)).isSome : Prop)
    · rw [if_pos hk]
      by_cases hkey : k = ph ++ "/" ++ sh
      · refine ⟨{ r with
            nsName := nsv
            podName := pod
            containerName := cn
            snapshotID := sid
            lastAccessed := now }, ?_, rfl, rfl⟩
        rw [List.mem_filter]
        constructor
        · rw [List.mem_map]
          exact ⟨(k, r), hmem, by rw [if_pos hkey]⟩
        · simpa using hdir
      · refine ⟨r, ?_, rfl, rfl⟩
        rw [List.mem_filter]
        constructor
        · rw [List.mem_map]
          exact ⟨(k, r), hmem, by rw [if_neg hkey]⟩
        · simpa using hdir
    · rw [if_neg hk]
      refine ⟨r, ?_, rfl, rfl⟩
      rw [List.mem_filter]
      constructor
      · exact List.mem_append_left _ hmem
      · simpa using hdir
  · unfold LookupPathMappingM
    dsimp only
    cases hl : st.lookup (ph ++ "/" ++ sh) with
    | none => exact ⟨r, hmem⟩
    | some m =>
      by_cases hkey : k = ph ++ "/" ++ sh
      · refine ⟨{ r with lastAccessed := now }, ?_⟩
        rw [List.mem_map]
        exact ⟨(k, r), hmem, by rw [if_pos hkey]⟩
      · refine ⟨r, ?_⟩
        rw [List.mem_map]
        exact ⟨(k, r), hmem, by rw [if_neg hkey]⟩
  · intro file
    unfold LoadPathMappingsM
    dsimp only
    cases hf : file.lookup k with
    | none =>
      refine ⟨r, List.mem_append_left _ ?_⟩
      rw [List.mem_filter]
      exact ⟨hmem, by simp [hf]⟩
    | some v =>
      exact ⟨v, List.mem_append_right _ (lookup_mem file k v hf)⟩

def orphanRecord : PathMapping := ⟨"aa", "bb", "n", "p", "c", "1", 0, 0⟩

/-- C9 counterexample: a `RegisterPathMapping` call — a normal-lifecycle
operation invoked on every shared-path resolution — deletes the record of
another snapshot whose on-disk directory no longer exists: the claim that
records are removed only by the opt-in staleness sweep is false. -/
theorem C9_register_deletes_orphan_records :
    ("aa/bb", orphanRecord) ∈ [("aa/bb", orphanRecord)] ∧
    RegisterPathMappingM "/nb" "cc" "dd" "n2" "p2" "c2" "2" 5 (fun _ => false)
      [("aa/bb", orphanRecord)] = [] := by
  exact ⟨by simp, rfl⟩

theorem C9_lifecycle_record_retention_witness :
    (∃ r', ("aa/bb", r') ∈ RegisterPathMappingM "/nb" "cc" "dd" "n2" "p2" "c2" "2" 5
        (fun _ => true) [("aa/bb", orphanRecord)] ∧
      r'.podHash = orphanRecord.podHash ∧ r'.snapshotHash = orphanRecord.snapshotHash) ∧
    (∃ r', ("aa/bb", r') ∈ (LookupPathMappingM "cc" "dd" 5 [("aa/bb", orphanRecord)]).2) ∧
    (∀ file, ∃ r', ("aa/bb", r') ∈ LoadPathMappingsM (some file) [("aa/bb", orphanRecord)]) :=
  C9_lifecycle_record_retention "/nb" "cc" "dd" "n2" "p2" "c2" "2" 5 (fun _ => true)
    [("aa/bb", orphanRecord)] "aa/bb" orphanRecord (by simp) rfl

/-- The optional `os.Lchown` recorded for an explicit or inherited UID/GID
pair (`none` models Go's `(-1, -1)`, i.e. no chown). -/
def lchownOps (path : String) : Option (Nat × Nat) → List FsOp
  | some ug => [FsOp.lchown path ug.1 ug.2]
  | none => []

/-- C10: a `View` create runs the local branch of `createSnapshot` even when
every shared-storage label is present and satisfied: it creates a temporary
directory under the local snapshots root containing only `fs` (no `work`
entry appears in the trace), optionally chowns it, and atomically renames it
to `<snapshots_root>/<id>`; no `os.MkdirAll` (the shared upper/work
creation) is performed. -/
theorem C10_view_is_always_local
    (o : SnapConfig) (s : Snapshot) (info : SnapInfo)
    (statUIDGID : String → Option (Nat × Nat))
    (rootPair : String → String → Except String (Nat × Nat))
    (tmpName : String) (mapped : Option (Nat × Nat))
    (hmap : deriveUidGid o info s.parentIDs statUIDGID rootPair = .ok mapped) :
    createSnapshotE o SnapKind.view s info statUIDGID rootPair tmpName =
      .ok ⟨(mountsE o (fun p => (statUIDGID p).isSome) s info).1,
        ([FsOp.mkdirTemp (getSnapshotsRoot o) tmpName,
          FsOp.mkdir (goJoin [goJoin [getSnapshotsRoot o, tmpName], "fs"]) 0o755] ++
         lchownOps (goJoin [goJoin [getSnapshotsRoot o, tmpName], "fs"]) mapped ++
         [FsOp.rename (goJoin [getSnapshotsRoot o, tmpName]) (getSnapshotPath o s.id)]),
        (mountsE o (fun p => (statUIDGID p).isSome) s info).2⟩ ∧
    (∀ r, createSnapshotE o SnapKind.view s info statUIDGID rootPair tmpName = .ok r →
      ∀ p m, FsOp.mkdirAll p m ∉ r.ops) := by
  have hview : ¬ (isSharedSnapshot info = true ∧ SnapKind.view = SnapKind.active) := by
    intro ⟨_, hk⟩
    cases hk
  have hmain : createSnapshotE o SnapKind.view s info statUIDGID rootPair tmpName =
      .ok ⟨(mountsE o (fun p => (statUIDGID p).isSome) s info).1,
        ([FsOp.mkdirTemp (getSnapshotsRoot o) tmpName,
          FsOp.mkdir (goJoin [goJoin [getSnapshotsRoot o, tmpName], "fs"]) 0o755] ++
         lchownOps (goJoin [goJoin [getSnapshotsRoot o, tmpName], "fs"]) mapped ++
         [FsOp.rename (goJoin [getSnapshotsRoot o, tmpName]) (getSnapshotPath o s.id)]),
        (mountsE o (fun p => (statUIDGID p).isSome) s info).2⟩ := by
    unfold createSnapshotE
    rw [hmap]
    dsimp only
    rw [if_neg hview]
    unfold prepareDirectoryOps lchownOps
    cases mapped with
    | none => rfl
    | some ug => rfl
  refine ⟨hmain, ?_⟩
  intro r hr p m
  rw [hmain] at hr
  simp only [Except.ok.injEq] at hr
  rw [← hr]
  cases mapped with
  | none => simp [lchownOps]
  | some ug => simp [lchownOps]

def c10Labels : List (String × String) :=
  [(LabelUseSharedStorage, "true"), (LabelSharedDiskPath, "/nb3"),
   (LabelK8sNamespace, "n"), (LabelK8sPodName, "p"), (LabelK8sContainerName, "c")]

def c10Info : SnapInfo := ⟨SnapKind.view, some c10Labels⟩

def statZero : String → Option (Nat × Nat) := fun _ => some (0, 0)

theorem C10_view_is_always_local_witness :
    createSnapshotE plainConfig SnapKind.view ⟨"11", SnapKind.view, ["9"]⟩ c10Info statZero
        (fun _ _ => .error "unused") "new-3" =
      .ok ⟨(mountsE plainConfig (fun p => (statZero p).isSome)
          ⟨"11", SnapKind.view, ["9"]⟩ c10Info).1,
        ([FsOp.mkdirTemp (getSnapshotsRoot plainConfig) "new-3",
          FsOp.mkdir (goJoin [goJoin [getSnapshotsRoot plainConfig, "new-3"], "fs"]) 0o755] ++
         lchownOps (goJoin [goJoin [getSnapshotsRoot plainConfig, "new-3"], "fs"])
           (some (0, 0)) ++
         [FsOp.rename (goJoin [getSnapshotsRoot plainConfig, "new-3"])
           (getSnapshotPath plainConfig "11")]),
        (mountsE plainConfig (fun p => (statZero p).isSome)
          ⟨"11", SnapKind.view, ["9"]⟩ c10Info).2⟩ :=
  (C10_view_is_always_local plainConfig ⟨"11", SnapKind.view, ["9"]⟩ c10Info statZero
    (fun _ _ => .error "unused") "new-3" (some (0, 0)) rfl).1
